import Mathlib

/-!
Verification development for the okteto workload-lifecycle orchestrator.

The Go sources are shallowly embedded as pure Lean functions:
 - pkg/k8s/deployments/translate.go  (namespace Deployments)
 - pkg/k8s/volumes (Create/Destroy)  (namespace Volumes)
 - pkg/cmd/stack/destroy.go          (namespace Stack)
 - cmd/up/activate.go (readiness watcher) (namespace Watcher)

Go maps over strings are modelled as association lists with a deterministic
replace-or-append write; in-place pointer mutation is modelled by returning
the updated value; the Kubernetes client and the clock are modelled as
explicit inputs (traces of responses / abstract elapsed time).
-/

/-- Association-list lookup: value of the first binding of key `k`.
Models reading a Go map. -/
def lookupKV {α : Type} (l : List (String × α)) (k : String) : Option α :=
  match l with
  | [] => none
  | (k', v') :: rest => if k' = k then some v' else lookupKV rest k

/-- Association-list write: replace the first binding of the key in place,
else append. Models writing a Go map (deterministic list representation). -/
def setKV {α : Type} (l : List (String × α)) (k : String) (v : α) :
    List (String × α) :=
  match l with
  | [] => [(k, v)]
  | (k', v') :: rest => if k' = k then (k, v) :: rest else (k', v') :: setKV rest k v

/-- Association-list delete: remove every binding of the key.
Models the Go builtin delete on a map. -/
def removeKV {α : Type} (l : List (String × α)) (k : String) :
    List (String × α) :=
  match l with
  | [] => []
  | (k', v') :: rest => if k' = k then removeKV rest k else (k', v') :: removeKV rest k

/-- Whether the first character list starts with the second. -/
def charsStartsWith : List Char → List Char → Bool
  | _, [] => true
  | [], _ :: _ => false
  | c :: cs, d :: ds => c = d && charsStartsWith cs ds

/-- Whether the second character list occurs inside the first. -/
def charsContains : List Char → List Char → Bool
  | [], sub => sub.isEmpty
  | c :: cs, sub => charsStartsWith (c :: cs) sub || charsContains cs sub

/-- Boolean substring test: models Go strings.Contains. -/
def containsSubstr (s sub : String) : Bool :=
  charsContains s.toList sub.toList

namespace Deployments

/-! ### Data model for pkg/k8s/deployments/translate.go

Only the fields that `translate` and its helpers read or write are modelled,
plus representative untouched fields (needed to state frame properties). -/

/-- A container environment variable (apiv1.EnvVar).  `valueFrom` stands for
the ValueFrom reference, kept opaque. -/
structure EnvVar where
  name : String
  value : String
  valueFrom : Option String
deriving DecidableEq, Repr, Inhabited

/-- An environment variable carried by a translation rule (model.EnvVar):
name and value only. -/
structure RuleEnvVar where
  name : String
  value : String
deriving DecidableEq, Repr, Inhabited

/-- apiv1.VolumeMount, restricted to the fields the translation writes. -/
structure VolumeMount where
  name : String
  mountPath : String
  subPath : String
deriving DecidableEq, Repr, Inhabited

/-- apiv1.KeyToPath. -/
structure KeyToPath where
  key : String
  path : String
  mode : Option Int
deriving DecidableEq, Repr, Inhabited

/-- apiv1.VolumeSource, restricted to the alternatives the translation
constructs. `empty` is the zero VolumeSource. -/
inductive VolumeSource where
  | empty
  | emptyDir
  | pvc (claimName : String) (readOnly : Bool)
  | secret (secretName : String) (items : List KeyToPath)
deriving DecidableEq, Repr, Inhabited

/-- apiv1.Volume. -/
structure Volume where
  name : String
  source : VolumeSource
deriving DecidableEq, Repr, Inhabited

/-- apiv1.Capabilities. -/
structure Capabilities where
  add : List String
  drop : List String
deriving DecidableEq, Repr, Inhabited

/-- apiv1.SecurityContext (container level), with the fields the translation
writes plus representative untouched fields (privileged,
allowPrivilegeEscalation) to state the frame property. -/
structure SecurityContext where
  runAsUser : Option Int
  runAsGroup : Option Int
  runAsNonRoot : Option Bool
  capabilities : Option Capabilities
  readOnlyRootFilesystem : Option Bool
  privileged : Option Bool
  allowPrivilegeEscalation : Option Bool
deriving DecidableEq, Repr, Inhabited

/-- apiv1.PodSecurityContext, with fsGroup (the only field written) plus a
representative untouched field. -/
structure PodSecurityContext where
  fsGroup : Option Int
  runAsUser : Option Int
deriving DecidableEq, Repr, Inhabited

/-- model.SecurityContext: the rule-side security context override. -/
structure ModelSecurityContext where
  runAsUser : Option Int
  runAsGroup : Option Int
  fsGroup : Option Int
  capabilities : Option Capabilities
deriving DecidableEq, Repr, Inhabited

/-- model.Probes: which probes stay enabled. -/
structure Probes where
  liveness : Bool
  readiness : Bool
  startup : Bool
deriving DecidableEq, Repr, Inhabited

/-- Resource requests/limits.  Quantities are kept opaque as strings; the
translation only moves them around.  Keys are resource names. -/
structure ResourceRequirements where
  limits : List (String × String)
  requests : List (String × String)
deriving DecidableEq, Repr, Inhabited

/-- apiv1.Container, restricted to the fields the translation touches.
Probe contents are opaque strings (the code only discards them). -/
structure Container where
  name : String
  image : String
  imagePullPolicy : String
  workingDir : String
  command : List String
  args : List String
  livenessProbe : Option String
  readinessProbe : Option String
  startupProbe : Option String
  env : List EnvVar
  volumeMounts : List VolumeMount
  resources : ResourceRequirements
  securityContext : Option SecurityContext
deriving DecidableEq, Repr, Inhabited

/-- apiv1.Toleration, opaque content. -/
structure Toleration where
  key : String
  effect : String
deriving DecidableEq, Repr, Inhabited

/-- One required pod-affinity term (matchLabels + topologyKey), the only
shape the translation appends. -/
structure PodAffinityTerm where
  matchLabels : List (String × String)
  topologyKey : String
deriving DecidableEq, Repr, Inhabited

/-- The affinity tree collapsed to the required pod-affinity terms the
translation manipulates. -/
structure Affinity where
  requiredPodAffinity : List PodAffinityTerm
deriving DecidableEq, Repr, Inhabited

/-- apiv1.PodSpec, restricted to the fields the translation touches. -/
structure PodSpec where
  containers : List Container
  initContainers : List Container
  volumes : List Volume
  tolerations : List Toleration
  affinity : Option Affinity
  securityContext : Option PodSecurityContext
  serviceAccountName : String
  terminationGracePeriodSeconds : Option Int
deriving DecidableEq, Repr, Inhabited

/-- metav1.ObjectMeta: name, labels, annotations (string maps as
association lists). -/
structure ObjectMeta where
  name : String
  labels : List (String × String)
  annotations : List (String × String)
deriving DecidableEq, Repr, Inhabited

/-- The pod template: its own metadata plus the pod spec. -/
structure PodTemplateSpec where
  metadata : ObjectMeta
  podSpec : PodSpec
deriving DecidableEq, Repr, Inhabited

/-- appsv1.DeploymentSpec (replicas + template). -/
structure DeploymentSpec where
  replicas : Option Int
  template : PodTemplateSpec
deriving DecidableEq, Repr, Inhabited

/-- appsv1.Deployment.  `storedManifest` models the
"dev.okteto.com/deployment" annotation: in Go it stores the JSON
serialization of a deployment; since the stdlib marshal/unmarshal pair is a
faithful round trip, the annotation is modelled as holding the decoded
deployment value itself (absence = annotation absent or empty), which makes
byte equality of serialized specs coincide with equality of values.
`status` is an opaque string ("" = zero DeploymentStatus). -/
inductive Deployment where
  | mk (metadata : ObjectMeta) (storedManifest : Option Deployment)
      (spec : DeploymentSpec) (status : String)
deriving Inhabited

def Deployment.metadata : Deployment → ObjectMeta
  | .mk m _ _ _ => m

def Deployment.storedManifest : Deployment → Option Deployment
  | .mk _ st _ _ => st

def Deployment.spec : Deployment → DeploymentSpec
  | .mk _ _ s _ => s

def Deployment.status : Deployment → String
  | .mk _ _ _ st => st

def Deployment.setMetadata : Deployment → ObjectMeta → Deployment
  | .mk _ st s stat, m => .mk m st s stat

def Deployment.setStored : Deployment → Option Deployment → Deployment
  | .mk m _ s stat, st => .mk m st s stat

def Deployment.setStatus : Deployment → String → Deployment
  | .mk m st s _, stat => .mk m st s stat

def Deployment.setReplicas : Deployment → Option Int → Deployment
  | .mk m st s stat, r => .mk m st { s with replicas := r } stat

/-- Update the pod template's metadata. -/
def Deployment.updTemplateMeta : Deployment → (ObjectMeta → ObjectMeta) → Deployment
  | .mk m st s stat, f =>
    .mk m st { s with template := { s.template with metadata := f s.template.metadata } } stat

/-- Update the pod spec inside the template. -/
def Deployment.updPodSpec : Deployment → (PodSpec → PodSpec) → Deployment
  | .mk m st s stat, f =>
    .mk m st { s with template := { s.template with podSpec := f s.template.podSpec } } stat

/-- model.InitContainer: image plus resource profile. -/
structure InitContainer where
  image : String
  resources : ResourceRequirements
deriving DecidableEq, Repr, Inhabited

/-- model.Secret restricted to what the translation reads.  GetKeyName and
GetFileName live in the model package (not under src); modelled from the
spec as stored key/file names with POSIX mode bits. -/
structure Secret where
  keyName : String
  fileName : String
  mode : Int
deriving DecidableEq, Repr, Inhabited

/-- A volume declared by a rule.  `isSyncthingVol` models
model.Volume.IsSyncthing (defined in the model package, not under src):
modelled from the spec as the volume's sync marker. -/
structure RuleVolume where
  name : String
  mountPath : String
  subPath : String
  isSyncthingVol : Bool
deriving DecidableEq, Repr, Inhabited

/-- model.TranslationRule: the per-container override bundle.  `isMainDev`
models TranslationRule.IsMainDevContainer (model package, not under src):
modelled from the spec as the rule's "is the main session container" flag. -/
structure TranslationRule where
  container : String
  image : String
  imagePullPolicy : String
  workDir : String
  command : List String
  args : List String
  probes : Probes
  resources : ResourceRequirements
  environment : List RuleEnvVar
  volumes : List RuleVolume
  securityContext : Option ModelSecurityContext
  serviceAccount : String
  secrets : List Secret
  marker : String
  initContainer : InitContainer
  persistentVolume : Bool
  isMainDev : Bool
deriving DecidableEq, Repr, Inhabited

/-- model.Translation: deployment plus rules and session options. -/
structure Translation where
  name : String
  interactive : Bool
  deployment : Deployment
  annotations : List (String × String)
  tolerations : List Toleration
  rules : List TranslationRule
deriving Inhabited

/-! ### Constants.  Label keys and the version string come from the labels
package (not under src); modelled from the spec as fixed string constants
(their exact values are irrelevant to the claims). -/

def devLabel : String := "dev.okteto.com"

def interactiveDevLabel : String := "interactive.dev.okteto.com"

def detachedDevLabel : String := "detached.dev.okteto.com"

def oktetoVersionValue : String := "1.0"

def oktetoVersionAnnKey : String := "dev.okteto.com/version"

def revisionAnnKey : String := "deployment.kubernetes.io/revision"

def oktetoBinName : String := "okteto-bin"

def oktetoSyncSecretVolume : String := "okteto-sync-secret"

def oktetoDevSecretVolume : String := "okteto-dev-secret"

def oktetoSecretTemplate (name : String) : String := "okteto-" ++ name

def devReplicas : Int := 1

def devTerminationGracePeriodSeconds : Int := 0

def resourceMemory : String := "memory"

def resourceCPU : String := "cpu"

/-- model.ResourceAMDGPU (model package, not under src): modelled from the
spec's "two GPU kinds". -/
def resourceAMDGPU : String := "amd.com/gpu"

/-- model.ResourceNVIDIAGPU (model package, not under src). -/
def resourceNVIDIAGPU : String := "nvidia.com/gpu"

def oktetoUpInitContainerRequestsCPU : String := "10m"

def oktetoUpInitContainerRequestsMemory : String := "10Mi"

def oktetoUpInitContainerLimitsCPU : String := "30m"

def oktetoUpInitContainerLimitsMemory : String := "30Mi"

/-! ### The translation functions (translate.go) -/

/-- GetDevContainer, reduced to the index of the selected container: empty
name selects the first container, otherwise the first container with that
name; none if absent (or if the list is empty). -/
def getDevContainerIdx (containers : List Container) (name : String) : Option Nat :=
  if name = "" then
    if containers.isEmpty then none else some 0
  else
    containers.findIdx? (fun c => c.name = name)

/-- The container names of a deployment's pod template, in order. -/
def containerNames (d : Deployment) : List String :=
  d.spec.template.podSpec.containers.map Container.name

/-- One step of the rule-resolution loop at the top of translate: store the
resolved container's name back into the rule, or fail with the
container-not-found error. -/
def resolveRuleName (names : List String) (depName : String)
    (rule : TranslationRule) : Except String TranslationRule :=
  match (if rule.container = "" then names.head?
         else if names.contains rule.container then some rule.container else none) with
  | some n => .ok { rule with container := n }
  | none => .error ("Container '" ++ rule.container ++ "' not found in deployment '"
      ++ depName ++ "'")

/-- The rule-resolution loop at the top of translate (lines 61-67). -/
def resolveRules (d : Deployment) : List TranslationRule →
    Except String (List TranslationRule)
  | [] => .ok []
  | r :: rest =>
    match resolveRuleName (containerNames d) d.metadata.name r with
    | .error e => .error e
    | .ok r1 =>
      match resolveRules d rest with
      | .error e => .error e
      | .ok rest1 => .ok (r1 :: rest1)

/-- TranslateDevAnnotations: set every user-provided annotation. -/
def translateDevAnns (m : ObjectMeta) (anns : List (String × String)) : ObjectMeta :=
  { m with annotations := anns.foldl (fun a kv => setKV a kv.1 kv.2) m.annotations }

/-- setLabel on an ObjectMeta. -/
def setLabelMeta (m : ObjectMeta) (k v : String) : ObjectMeta :=
  { m with labels := setKV m.labels k v }

/-- setAnnotation on an ObjectMeta. -/
def setAnnMeta (m : ObjectMeta) (k v : String) : ObjectMeta :=
  { m with annotations := setKV m.annotations k v }

/-- commonTranslation. -/
def commonTranslation (t : Translation) : Translation :=
  let d := t.deployment
  let d := d.setMetadata (translateDevAnns d.metadata t.annotations)
  let d := d.setMetadata (setAnnMeta d.metadata oktetoVersionAnnKey oktetoVersionValue)
  let d := d.setMetadata (setLabelMeta d.metadata devLabel "true")
  let d := if t.interactive then
      d.updTemplateMeta (fun m => setLabelMeta m interactiveDevLabel t.name)
    else
      d.updTemplateMeta (fun m => setLabelMeta m detachedDevLabel t.name)
  let d := d.setReplicas (some devReplicas)
  { t with deployment := d }

/-- TranslateDevTolerations: append the session tolerations. -/
def translateDevTolerations (ps : PodSpec) (tols : List Toleration) : PodSpec :=
  { ps with tolerations := ps.tolerations ++ tols }

/-- TranslatePodAffinity: append the co-scheduling affinity term. -/
def translatePodAffinity (ps : PodSpec) (name : String) : PodSpec :=
  let aff : Affinity := match ps.affinity with
    | none => { requiredPodAffinity := [] }
    | some a => a
  { ps with affinity := some { aff with requiredPodAffinity :=
      aff.requiredPodAffinity ++
        [{ matchLabels := [(interactiveDevLabel, name)],
           topologyKey := "kubernetes.io/hostname" }] } }

/-- TranslateProbes: discard any probe not explicitly enabled. -/
def translateProbes (c : Container) (h : Probes) : Container :=
  { c with
    livenessProbe := if h.liveness then c.livenessProbe else none,
    readinessProbe := if h.readiness then c.readinessProbe else none,
    startupProbe := if h.startup then c.startupProbe else none }

/-- One conditional key copy inside TranslateResources: `if v, ok := src[k]; ok`
then write it into the target. -/
def mergeResourceKey (target src : List (String × String)) (k : String) :
    List (String × String) :=
  match lookupKV src k with
  | some v => setKV target k v
  | none => target

/-- TranslateResources: merge the four fixed resource keys from the rule
into the container, requests then limits. -/
def translateResources (res : ResourceRequirements) (r : ResourceRequirements) :
    ResourceRequirements :=
  let reqs := mergeResourceKey res.requests r.requests resourceMemory
  let reqs := mergeResourceKey reqs r.requests resourceCPU
  let reqs := mergeResourceKey reqs r.requests resourceAMDGPU
  let reqs := mergeResourceKey reqs r.requests resourceNVIDIAGPU
  let lims := mergeResourceKey res.limits r.limits resourceMemory
  let lims := mergeResourceKey lims r.limits resourceCPU
  let lims := mergeResourceKey lims r.limits resourceAMDGPU
  let lims := mergeResourceKey lims r.limits resourceNVIDIAGPU
  { limits := lims, requests := reqs }

/-- The map built from the rule's environment (last writer wins), as in the
first loop of TranslateEnvVars. -/
def buildRuleEnvMap (env : List RuleEnvVar) : List (String × String) :=
  env.foldl (fun m e => setKV m e.name e.value) []

/-- The value a rule assigns to a name, last occurrence winning (the value
the Go map ends up holding for that name). -/
def ruleLast : List RuleEnvVar → String → Option String
  | [], _ => none
  | e :: rest, n =>
    match ruleLast rest n with
    | some v => some v
    | none => if e.name = n then some e.value else none

/-- The second loop of TranslateEnvVars: rewrite base variables named in the
map (consuming the map entry), keep the rest. -/
def applyRuleEnv : List EnvVar → List (String × String) →
    List EnvVar × List (String × String)
  | [], m => ([], m)
  | e :: rest, m =>
    match lookupKV m e.name with
    | some v =>
      let p := applyRuleEnv rest (removeKV m e.name)
      ({ name := e.name, value := v, valueFrom := none } :: p.1, p.2)
    | none =>
      let p := applyRuleEnv rest m
      (e :: p.1, p.2)

/-- The third loop of TranslateEnvVars: append one entry per rule variable
still present in the residual map (the map is not consumed here). -/
def appendRuleEnv : List RuleEnvVar → List (String × String) → List EnvVar
  | [], _ => []
  | e :: rest, m =>
    match lookupKV m e.name with
    | some v => { name := e.name, value := v, valueFrom := none } :: appendRuleEnv rest m
    | none => appendRuleEnv rest m

/-- TranslateEnvVars (lines 297-313). -/
def translateEnvVars (baseEnv : List EnvVar) (ruleEnv : List RuleEnvVar) :
    List EnvVar :=
  let m := buildRuleEnvMap ruleEnv
  let p := applyRuleEnv baseEnv m
  p.1 ++ appendRuleEnv ruleEnv p.2

/-- TranslateVolumeMounts: append the rule volumes, then (when the sync
marker is set) the sync-secret mount and, if secrets are declared, the
dev-secret mount. -/
def translateVolumeMounts (c : Container) (rule : TranslationRule) : Container :=
  let vms := c.volumeMounts ++ rule.volumes.map (fun v =>
    { name := v.name, mountPath := v.mountPath, subPath := v.subPath })
  if rule.marker = "" then { c with volumeMounts := vms }
  else
    let vms := vms ++ [{ name := oktetoSyncSecretVolume,
                         mountPath := "/var/syncthing/secret/", subPath := "" }]
    let vms := if rule.secrets.length > 0 then
        vms ++ [{ name := oktetoDevSecretVolume,
                  mountPath := "/var/okteto/secret/", subPath := "" }]
      else vms
    { c with volumeMounts := vms }

/-- TranslateContainerSecurityContext (lines 449-482). -/
def translateContainerSecurityContext (c : Container)
    (s : Option ModelSecurityContext) : Container :=
  match s with
  | none => c
  | some s =>
    let sc := match c.securityContext with
      | none => (default : SecurityContext)
      | some sc => sc
    let sc := match s.runAsUser with
      | some u =>
        { sc with
          runAsUser := some u,
          runAsNonRoot := if u = 0 then some false else sc.runAsNonRoot }
      | none => sc
    let sc := match s.runAsGroup with
      | some g =>
        { sc with
          runAsGroup := some g,
          runAsNonRoot := if g = 0 then some false else sc.runAsNonRoot }
      | none => sc
    match s.capabilities with
    | none => { c with securityContext := some sc }
    | some caps =>
      let base : Capabilities := match sc.capabilities with
        | none => { add := [], drop := [] }
        | some cs => cs
      { c with securityContext := some { sc with
          readOnlyRootFilesystem := none,
          capabilities := some { base with
            add := base.add ++ caps.add,
            drop := base.drop ++ caps.drop } } }

/-- TranslatePodSecurityContext: only fsGroup is written. -/
def translatePodSecurityContext (ps : PodSpec) (s : Option ModelSecurityContext) :
    PodSpec :=
  match s with
  | none => ps
  | some s =>
    let sc := match ps.securityContext with
      | none => (default : PodSecurityContext)
      | some sc => sc
    match s.fsGroup with
    | some g => { ps with securityContext := some { sc with fsGroup := some g } }
    | none => { ps with securityContext := some sc }

/-- TranslatePodServiceAccount. -/
def translatePodServiceAccount (ps : PodSpec) (sa : String) : PodSpec :=
  if sa = "" then ps else { ps with serviceAccountName := sa }

/-- setDefaultResourceValueIfNotPresent. -/
def setDefaultResourceValue (l : List (String × String)) (k v : String) :
    List (String × String) :=
  match lookupKV l k with
  | some _ => l
  | none => setKV l k v

/-- TranslateInitContainer: fill the default resource profile. -/
def translateInitContainer (ic : InitContainer) : InitContainer :=
  let lims := setDefaultResourceValue ic.resources.limits resourceMemory
    oktetoUpInitContainerLimitsMemory
  let lims := setDefaultResourceValue lims resourceCPU oktetoUpInitContainerLimitsCPU
  let reqs := setDefaultResourceValue ic.resources.requests resourceMemory
    oktetoUpInitContainerRequestsMemory
  let reqs := setDefaultResourceValue reqs resourceCPU oktetoUpInitContainerRequestsCPU
  { ic with resources := { limits := lims, requests := reqs } }

/-- TranslateOktetoVolumes: add one pod volume per rule volume not already
present by name (empty-dir for the syncthing volume without persistence,
otherwise a claim reference). -/
def translateOktetoVolumes (ps : PodSpec) (rule : TranslationRule) : PodSpec :=
  rule.volumes.foldl (fun ps rV =>
    if ps.volumes.any (fun v => v.name = rV.name) then ps
    else
      let src := if !rule.persistentVolume && rV.isSyncthingVol then
          VolumeSource.emptyDir
        else
          VolumeSource.pvc rV.name false
      { ps with volumes := ps.volumes ++ [{ name := rV.name, source := src }] }) ps

/-- TranslateOktetoBinVolumeMounts: mount the shared bin volume once. -/
def translateOktetoBinVolumeMounts (c : Container) : Container :=
  if c.volumeMounts.any (fun vm => vm.name = oktetoBinName) then c
  else { c with volumeMounts := c.volumeMounts ++
      [{ name := oktetoBinName, mountPath := "/var/okteto/bin", subPath := "" }] }

/-- TranslateOktetoBinVolume: add the shared empty-dir bin volume once. -/
def translateOktetoBinVolume (ps : PodSpec) : PodSpec :=
  if ps.volumes.any (fun v => v.name = oktetoBinName) then ps
  else { ps with volumes := ps.volumes ++
      [{ name := oktetoBinName, source := VolumeSource.emptyDir }] }

/-- TranslateOktetoInitBinContainer: append the toolchain init container. -/
def translateOktetoInitBinContainer (ic : InitContainer) (ps : PodSpec) : PodSpec :=
  let c : Container := {
    name := oktetoBinName,
    image := ic.image,
    imagePullPolicy := "IfNotPresent",
    workingDir := "",
    command := ["sh", "-c", "cp /usr/local/bin/* /okteto/bin"],
    args := [],
    livenessProbe := none, readinessProbe := none, startupProbe := none,
    env := [],
    volumeMounts := [{ name := oktetoBinName, mountPath := "/okteto/bin", subPath := "" }],
    resources := {
      requests := [(resourceCPU, (lookupKV ic.resources.requests resourceCPU).getD ""),
                   (resourceMemory, (lookupKV ic.resources.requests resourceMemory).getD "")],
      limits := [(resourceCPU, (lookupKV ic.resources.limits resourceCPU).getD ""),
                 (resourceMemory, (lookupKV ic.resources.limits resourceMemory).getD "")] },
    securityContext := none }
  { ps with initContainers := ps.initContainers ++ [c] }

/-- TranslateOktetoSyncSecret: add the sync-credentials secret volume once,
with owner-read file modes. -/
def translateOktetoSyncSecret (ps : PodSpec) (name : String) : PodSpec :=
  if ps.volumes.any (fun v => v.name = oktetoSyncSecretVolume) then ps
  else
    let mode : Option Int := some 292
    { ps with volumes := ps.volumes ++
        [{ name := oktetoSyncSecretVolume,
           source := VolumeSource.secret (oktetoSecretTemplate name)
             [{ key := "config.xml", path := "config.xml", mode := mode },
              { key := "cert.pem", path := "cert.pem", mode := mode },
              { key := "key.pem", path := "key.pem", mode := mode }] }] }

/-- TranslateOktetoDevSecret: add the user-secrets volume once when the rule
declares secrets. -/
def translateOktetoDevSecret (ps : PodSpec) (secret : String)
    (secrets : List Secret) : PodSpec :=
  if secrets.length = 0 then ps
  else if ps.volumes.any (fun v => v.name = oktetoDevSecretVolume) then ps
  else
    { ps with volumes := ps.volumes ++
        [{ name := oktetoDevSecretVolume,
           source := VolumeSource.secret (oktetoSecretTemplate secret)
             (secrets.map (fun s =>
               { key := s.keyName, path := s.fileName, mode := some s.mode })) }] }

/-- TranslateDevContainer (lines 196-218).  Returns the updated container
and the updated rule (the rule's image is defaulted in place in Go). -/
def translateDevContainer (c : Container) (rule : TranslationRule) :
    Container × TranslationRule :=
  let rule := if rule.image = "" then { rule with image := c.image } else rule
  let c := { c with image := rule.image, imagePullPolicy := rule.imagePullPolicy }
  let c := if rule.workDir = "" then c else { c with workingDir := rule.workDir }
  let c := if rule.command.length > 0 then
      { c with command := rule.command, args := rule.args }
    else c
  let c := translateProbes c rule.probes
  let c := { c with resources := translateResources c.resources rule.resources }
  let c := { c with env := translateEnvVars c.env rule.environment }
  let c := translateVolumeMounts c rule
  let c := translateContainerSecurityContext c rule.securityContext
  (c, rule)

/-- The body of one iteration of the main per-rule loop of translate
(lines 109-126).  Returns the updated pod spec and the updated rule. -/
def translateRuleStep (tName depName : String) (ps : PodSpec)
    (rule : TranslationRule) : Except String (PodSpec × TranslationRule) :=
  match getDevContainerIdx ps.containers rule.container with
  | none => .error ("Container '" ++ rule.container ++ "' not found in deployment '"
      ++ depName ++ "'")
  | some i =>
    let c := ps.containers.getD i default
    let cr := translateDevContainer c rule
    let ps := { ps with containers := ps.containers.set i cr.1 }
    let rule := { cr.2 with initContainer := translateInitContainer cr.2.initContainer }
    let ps := translateOktetoVolumes ps rule
    let ps := translatePodSecurityContext ps rule.securityContext
    let ps := translatePodServiceAccount ps rule.serviceAccount
    let ps := translateOktetoDevSecret ps tName rule.secrets
    let ps := if rule.isMainDev then
        let cs := ps.containers.set i (translateOktetoBinVolumeMounts (ps.containers.getD i default))
        let ps := { ps with containers := cs }
        let ps := translateOktetoInitBinContainer rule.initContainer ps
        translateOktetoBinVolume ps
      else ps
    .ok (ps, rule)

/-- The main per-rule loop of translate, threading the pod spec and
collecting the updated rules. -/
def translateRules (tName depName : String) : PodSpec → List TranslationRule →
    Except String (PodSpec × List TranslationRule)
  | ps, [] => .ok (ps, [])
  | ps, r :: rest =>
    match translateRuleStep tName depName ps r with
    | .error e => .error e
    | .ok pr =>
      match translateRules tName depName pr.1 rest with
      | .error e => .error e
      | .ok prs => .ok (prs.1, pr.2 :: prs.2)

/-- Restoring the stored original (translate lines 69-76): when the
reversibility annotation is present, the caller-supplied base is discarded. -/
def restoreBase (d0 : Deployment) : Deployment :=
  match d0.storedManifest with
  | some dOrig => dOrig
  | none => d0

/-- Stripping for the snapshot (translate lines 77-79 and 91): remove the
cluster-generated revision annotation and clear the status. -/
def stripPrep (d : Deployment) : Deployment :=
  (d.setMetadata { d.metadata with
    annotations := removeKV d.metadata.annotations revisionAnnKey }).setStatus ""

/-- Restore, strip, then snapshot the spec into the reversibility
annotation (translate lines 69-96): the stored manifest is exactly the
deployment being marshalled. -/
def prepare (d0 : Deployment) : Deployment :=
  let d := stripPrep (restoreBase d0)
  d.setStored (some d)

/-- The pre-loop mutations of translate after the snapshot (lines 98-108):
common translation, template dev label, template annotations, tolerations,
grace period, then the sync-secret volume (interactive) or the pod affinity
(detached).  `t.deployment` is the prepared deployment. -/
def mutPre (t : Translation) : Deployment :=
  let t1 := commonTranslation t
  let d := t1.deployment
  let d := d.updTemplateMeta (fun m => setLabelMeta m devLabel "true")
  let d := d.updTemplateMeta (fun m => translateDevAnns m t.annotations)
  let d := d.updPodSpec (fun ps => translateDevTolerations ps t.tolerations)
  let d := d.updPodSpec (fun ps =>
    { ps with terminationGracePeriodSeconds := some devTerminationGracePeriodSeconds })
  if t.interactive then d.updPodSpec (fun ps => translateOktetoSyncSecret ps t.name)
  else d.updPodSpec (fun ps => translatePodAffinity ps t.name)

/-- The mutation pipeline of translate after the snapshot (lines 98-127):
the pre-loop mutations, then the per-rule loop. -/
def mutate (t : Translation) (rules1 : List TranslationRule) :
    Except String (Deployment × List TranslationRule) :=
  match translateRules t.name (mutPre t).metadata.name
      (mutPre t).spec.template.podSpec rules1 with
  | .error e => .error e
  | .ok pr => .ok ((mutPre t).updPodSpec (fun _ => pr.1), pr.2)

/-- translate (lines 60-128), client-side path: the branch taken when the
clientset is nil, the namespace is not okteto-managed, or the clientside
translation environment variable is set (lines 81-89 then fall through).
Resolves the rules' container names, restores the stored original when the
reversibility annotation is present, strips the revision annotation,
snapshots the spec into the annotation, then applies the common translation
and the per-rule mutations.  JSON marshalling is modelled as storing the
deployment value itself (see Deployment.storedManifest), so the unmarshal
error branch cannot fire. -/
def translate (t : Translation) : Except String Translation :=
  match resolveRules t.deployment t.rules with
  | .error e => .error e
  | .ok rules1 =>
    match mutate { t with deployment := prepare t.deployment, rules := rules1 } rules1 with
    | .error e => .error e
    | .ok pr => .ok { t with deployment := pr.1, rules := pr.2 }

end Deployments

namespace Volumes

/-! ### Model for pkg/k8s/volumes (Create / checkPVCValues / Destroy /
checkIfAttached).  Resource quantities are modelled as parsed Nat values
(byte counts); resource.MustParse and Quantity.Cmp become parsing into Nat
and Nat comparison. -/

/-- resource.MustParse "10Gi". -/
def tenGi : Nat := 10 * 1024 * 1024 * 1024

/-- Modelled from the spec: model.OktetoDefaultPVSize, the current default
volume size constant of the model package (not under src); 2Gi at this
revision.  Only its relation to the requested/existing sizes matters to the
claims, never the literal value. -/
def oktetoDefaultPVSize : Nat := 2 * 1024 * 1024 * 1024

/-- Modelled from the spec: the development-container settings Create
consults.  `size` is dev.PersistentVolumeSize() already resolved (explicit
size or the default), `storageClass` is dev.PersistentVolumeStorageClass()
("" = unset). -/
structure Dev where
  size : Nat
  storageClass : String
deriving DecidableEq, Repr, Inhabited

/-- The persistent volume claim spec fields checkPVCValues reads. -/
structure PVCSpec where
  storageRequests : List (String × Nat)
  storageClassName : Option String
deriving DecidableEq, Repr, Inhabited

/-- A persistent volume claim as returned by the cluster get. -/
structure PVC where
  name : String
  spec : PVCSpec
deriving DecidableEq, Repr, Inhabited

/-- checkPVCValues (part_000 lines 67-97): validate an existing claim
against the requested size and storage class; some = the error message. -/
def checkPVCValues (pvc : PVC) (dev : Dev) : Option String :=
  match lookupKV pvc.spec.storageRequests "storage" with
  | none => some "current okteto volume size is wrong. Run 'okteto down -v' and try again"
  | some currentSize =>
    if currentSize ≠ dev.size ∧
        (currentSize ≠ tenGi ∨ dev.size ≠ oktetoDefaultPVSize) then
      some ("current okteto volume size is '" ++ toString currentSize
        ++ "' instead of '" ++ toString dev.size
        ++ "'. Run 'okteto down -v' and try again")
    else if dev.storageClass ≠ "" then
      match pvc.spec.storageClassName with
      | none => some ("current okteto volume storageclass is '' instead of '"
          ++ dev.storageClass ++ "'. Run 'okteto down -v' and try again")
      | some sc =>
        if dev.storageClass ≠ sc then
          some ("current okteto volume storageclass is '" ++ sc ++ "' instead of '"
            ++ dev.storageClass ++ "'. Run 'okteto down -v' and try again")
        else none
    else none

/-- Outcome of the initial get in Create: the claim, a not-found error, or
another error. -/
inductive GetResult where
  | found (pvc : PVC)
  | notFound
  | getErr (msg : String)
deriving DecidableEq, Repr, Inhabited

/-- What Create did to the cluster. -/
inductive CreateAction where
  | noop
  | createdNew
deriving DecidableEq, Repr, Inhabited

/-- volumes.Create (part_000 lines 49-65).  `g` is the response of the get
by claim name; `createErr` the response of the create call (used only when
the claim does not exist yet). -/
def create (g : GetResult) (createErr : Option String) (dev : Dev) :
    Except String CreateAction :=
  match g with
  | .getErr m => .error ("error getting kubernetes volume claim: " ++ m)
  | .found pvc =>
    match checkPVCValues pvc dev with
    | some e => .error e
    | none => .ok .noop
  | .notFound =>
    match createErr with
    | some m => .error ("error creating kubernetes volume claim: " ++ m)
    | none => .ok .createdNew

/-- A pod as seen by checkIfAttached: its name and the claim names of its
persistent-volume-claim volumes. -/
structure PodRef where
  name : String
  claimNames : List String
deriving DecidableEq, Repr, Inhabited

/-- checkIfAttached (part_000 lines 147-166): some = the
still-attached error naming the first blocking pod; a failed pod list is
swallowed (returns none). -/
def checkIfAttached (name : String) (pods : Except String (List PodRef)) :
    Option String :=
  match pods with
  | .error _ => none
  | .ok items =>
    match items.find? (fun p => p.claimNames.contains name) with
    | some p => some ("can't delete the volume '" ++ name
        ++ "' since it's still attached to 'pod/" ++ p.name ++ "'")
    | none => none

/-- Response of one delete call inside the Destroy loop. -/
inductive DeleteResult where
  | deleted
  | notFound
  | err (msg : String)
deriving DecidableEq, Repr, Inhabited

/-- The environment Destroy interacts with: the delete response and the
elapsed time at each iteration, whether the context is cancelled when the
iteration reaches its select, and the pod list used by checkIfAttached. -/
structure DestroyEnv where
  deleteAt : Nat → DeleteResult
  elapsed : Nat → Nat
  cancelledAt : Nat → Bool
  podsList : Except String (List PodRef)

/-- How a Destroy run ends. -/
inductive DestroyResult where
  | destroyed
  | cancelled
  | failed (msg : String)
deriving DecidableEq, Repr, Inhabited

/-- The retry loop of volumes.Destroy (part_000 lines 113-143). `to` is the
timeout bound, `i` the iteration counter; the fuel is a model artifact
(none = the trace did not resolve within the given fuel).  NotFound on
delete is success; after the timeout has elapsed the attachment check
decides the error; otherwise the loop ticks unless the context is done. -/
def destroyLoop (env : DestroyEnv) (name : String) (bound : Nat) :
    Nat → Nat → Option DestroyResult
  | 0, _ => none
  | fuel + 1, i =>
    match env.deleteAt i with
    | .notFound => some .destroyed
    | .err m => some (.failed ("error deleting kubernetes volume: " ++ m))
    | .deleted =>
      if bound < env.elapsed i then
        match checkIfAttached name env.podsList with
        | some m => some (.failed m)
        | none => some (.failed ("volume claim '" ++ name
            ++ "' wasn't destroyed after " ++ toString bound ++ "s"))
      else if env.cancelledAt i then some .cancelled
      else destroyLoop env name bound fuel (i + 1)

/-- volumes.Destroy (part_000 lines 105-145): the bound is 3 times the
configured base timeout (config.GetTimeout, modelled from the spec as the
parameter `baseTimeout`). -/
def destroy (env : DestroyEnv) (name : String) (baseTimeout : Nat) (fuel : Nat) :
    Option DestroyResult :=
  destroyLoop env name (3 * baseTimeout) fuel 0

end Volumes

namespace Stack

/-! ### Model for pkg/cmd/stack/destroy.go: waitForPodsToBeDestroyed. -/

/-- The polling interval (milliseconds). -/
def tickIntervalMs : Nat := 100

/-- The hard polling ceiling (seconds). -/
def timeoutSeconds : Nat := 300

/-- How many 100ms ticks fit in the 300s window: each loop iteration
consumes at least one tick, so the poll count is bounded by this. -/
def maxPolls : Nat := timeoutSeconds * 1000 / tickIntervalMs

/-- The timeout error message returned when pods remain after the window. -/
def timeoutMsg : String :=
  "kubernetes is taking too long to destroy your stack. Please check for errors and try again"

/-- The polling loop of waitForPodsToBeDestroyed (destroy.go lines
184-193): each iteration ticks and lists the pods matching the stack
selector (`polls i` is the length of that list, or the list error). -/
def waitForPodsLoop (polls : Nat → Except String Nat) :
    Nat → Nat → Except String Unit
  | 0, _ => .error timeoutMsg
  | fuel + 1, i =>
    match polls i with
    | .error e => .error e
    | .ok 0 => .ok ()
    | .ok (_ + 1) => waitForPodsLoop polls fuel (i + 1)

/-- waitForPodsToBeDestroyed (destroy.go lines 179-195). -/
def waitForPodsToBeDestroyed (polls : Nat → Except String Nat) :
    Except String Unit :=
  waitForPodsLoop polls maxPolls 0

end Stack

namespace Watcher

/-! ### Model for cmd/up/activate.go: waitUntilDevelopmentContainerIsRunning.

The two watch streams and the cancellation channel are serialized into one
list of items in arrival order (the Go select picks whichever stream is
ready). -/

/-- One item received by the watcher. -/
inductive WatchItem where
  | podEvent (reason : String) (message : String)
  | malformedEvent
  | podUpdate (phase : String) (deletionTimestamp : Option Nat)
  | malformedPodUpdate
  | ctxDone
deriving DecidableEq, Repr, Inhabited

/-- How the wait resolves.  `streamEnded` is a model artifact for a finite
trace that never resolves (the Go loop would still be waiting). -/
inductive WaitOutcome where
  | success
  | failed (msg : String)
  | podDeleted
  | cancelled
  | streamEnded
deriving DecidableEq, Repr, Inhabited

/-- The terminal event reasons (activate.go line 304). -/
def terminalReasons : List String :=
  ["Failed", "FailedScheduling", "FailedCreatePodSandBox", "ErrImageNeverPull",
   "InspectFailed", "FailedCreatePodContainer"]

/-- The benign transient message that is swallowed (activate.go line 305). -/
def benignMsg : String := "pod has unbound immediate PersistentVolumeClaims"

/-- waitUntilDevelopmentContainerIsRunning (activate.go lines 290-343):
terminal reasons fail with the event message unless it carries the benign
substring; Killing resolves with the pod-deleted error; SuccessfulAttachVolume
and Pulling only update UI state; a malformed payload re-subscribes; phase
Running succeeds; a deletion timestamp resolves pod-deleted; context
cancellation resolves with the cancellation error. -/
def waitUntilRunning : List WatchItem → WaitOutcome
  | [] => .streamEnded
  | item :: rest =>
    match item with
    | .podEvent reason msg =>
      if terminalReasons.contains reason then
        if containsSubstr msg benignMsg then waitUntilRunning rest
        else .failed msg
      else if reason = "Killing" then .podDeleted
      else waitUntilRunning rest
    | .malformedEvent => waitUntilRunning rest
    | .podUpdate phase ts =>
      if phase = "Running" then .success
      else if ts.isSome then .podDeleted
      else waitUntilRunning rest
    | .malformedPodUpdate => waitUntilRunning rest
    | .ctxDone => .cancelled

end Watcher

/-! ## General association-list lemmas -/

theorem lookupKV_setKV_self {α : Type} (l : List (String × α)) (k : String) (v : α) :
    lookupKV (setKV l k v) k = some v := by
  induction l with
  | nil => simp [setKV, lookupKV]
  | cons p rest ih =>
    by_cases h : p.1 = k
    · simp [setKV, h, lookupKV]
    · simp [setKV, h, lookupKV, ih]

theorem lookupKV_setKV_ne {α : Type} (l : List (String × α)) (k k' : String) (v : α)
    (h : k' ≠ k) : lookupKV (setKV l k v) k' = lookupKV l k' := by
  have hk : ¬ k = k' := fun hh => h hh.symm
  induction l with
  | nil => simp [setKV, lookupKV, hk]
  | cons p rest ih =>
    by_cases hp : p.1 = k
    · subst hp
      simp [setKV, lookupKV, hk]
    · simp [setKV, hp, lookupKV, ih]

theorem lookupKV_removeKV_self {α : Type} (l : List (String × α)) (k : String) :
    lookupKV (removeKV l k) k = none := by
  induction l with
  | nil => simp [removeKV, lookupKV]
  | cons p rest ih =>
    by_cases h : p.1 = k
    · simp [removeKV, h, ih]
    · simp [removeKV, h, lookupKV, ih]

theorem lookupKV_removeKV_ne {α : Type} (l : List (String × α)) (k k' : String)
    (h : k' ≠ k) : lookupKV (removeKV l k) k' = lookupKV l k' := by
  have hk : ¬ k = k' := fun hh => h hh.symm
  induction l with
  | nil => simp [removeKV, lookupKV]
  | cons p rest ih =>
    by_cases hp : p.1 = k
    · subst hp
      simp [removeKV, lookupKV, hk, ih]
    · simp [removeKV, hp, lookupKV, ih]

theorem removeKV_idem {α : Type} (l : List (String × α)) (k : String) :
    removeKV (removeKV l k) k = removeKV l k := by
  induction l with
  | nil => simp [removeKV]
  | cons p rest ih =>
    by_cases h : p.1 = k
    · simp [removeKV, h, ih]
    · simp [removeKV, h, ih]

namespace Stack

/-- If every poll keeps seeing pods, the loop always exhausts its window
and returns the generic timeout error. -/
theorem waitForPodsLoop_stuck (polls : Nat → Except String Nat)
    (h : ∀ i, ∃ k, polls i = .ok (k + 1)) :
    ∀ fuel i, waitForPodsLoop polls fuel i = .error timeoutMsg := by
  intro fuel
  induction fuel with
  | zero => intro i; rfl
  | succ n ih =>
    intro i
    obtain ⟨k, hk⟩ := h i
    simp [waitForPodsLoop, hk, ih]

/-- Claim C6, counterexample: with pods present at every poll, the pod-wait
of stack destruction returns the fixed generic timeout error, and that
message does not name the 300-second bound. -/
theorem waitForPods_timeout_message_cex :
    waitForPodsToBeDestroyed (fun _ => .ok 1) = .error timeoutMsg ∧
    containsSubstr timeoutMsg "300" = false := by
  constructor
  · exact waitForPodsLoop_stuck (fun _ => .ok 1) (fun _ => ⟨0, rfl⟩) maxPolls 0
  · decide

/-- Claim C6 (amended): when pods matching the session selector are still
present at every poll of the 300s/100ms window, waitForPodsToBeDestroyed
returns a timeout error with the fixed generic message advising the user to
check for errors and try again; the message does not name the 300-second
bound. -/
theorem waitForPods_timeout_spec (polls : Nat → Except String Nat)
    (h : ∀ i, ∃ k, polls i = .ok (k + 1)) :
    waitForPodsToBeDestroyed polls = .error timeoutMsg ∧
    containsSubstr timeoutMsg "300" = false := by
  constructor
  · exact waitForPodsLoop_stuck polls h maxPolls 0
  · decide

/-- Witness for waitForPods_timeout_spec at a concrete always-busy poll. -/
theorem waitForPods_timeout_spec_witness :
    waitForPodsToBeDestroyed (fun _ => .ok 2) = .error timeoutMsg ∧
    containsSubstr timeoutMsg "300" = false :=
  waitForPods_timeout_spec (fun _ => .ok 2) (fun _ => ⟨1, rfl⟩)

end Stack

namespace Watcher

/-- Claim C7: a Pulling event followed by a Running pod phase resolves the
wait with success; a terminal-reason event whose message does not carry the
benign unbound-claims substring resolves the wait with a failure carrying
that message; a terminal-reason event whose message does carry it is
swallowed and the wait continues on the rest of the stream. -/
theorem readiness_resolution_spec :
    (∀ (msg : String) (ts : Option Nat) (rest : List WatchItem),
      waitUntilRunning (WatchItem.podEvent "Pulling" msg ::
        WatchItem.podUpdate "Running" ts :: rest) = .success) ∧
    (∀ (reason msg : String) (rest : List WatchItem),
      terminalReasons.contains reason = true →
      containsSubstr msg benignMsg = false →
      waitUntilRunning (WatchItem.podEvent reason msg :: rest) = .failed msg) ∧
    (∀ (reason msg : String) (rest : List WatchItem),
      terminalReasons.contains reason = true →
      containsSubstr msg benignMsg = true →
      waitUntilRunning (WatchItem.podEvent reason msg :: rest) = waitUntilRunning rest) := by
  refine ⟨fun msg ts rest => rfl, ?_, ?_⟩
  · intro reason msg rest h1 h2
    have h1' : reason ∈ terminalReasons := by simpa using h1
    simp [waitUntilRunning, h1', h2]
  · intro reason msg rest h1 h2
    have h1' : reason ∈ terminalReasons := by simpa using h1
    simp [waitUntilRunning, h1', h2]

/-- Witness for readiness_resolution_spec at concrete streams. -/
theorem readiness_resolution_spec_witness :
    waitUntilRunning [WatchItem.podEvent "Pulling" "Pulling image x",
      WatchItem.podUpdate "Running" none] = .success ∧
    waitUntilRunning [WatchItem.podEvent "Failed" "image pull backoff"] =
      .failed "image pull backoff" ∧
    waitUntilRunning [WatchItem.podEvent "FailedScheduling"
        "pod has unbound immediate PersistentVolumeClaims (repeated 2 times)",
      WatchItem.podUpdate "Running" none] = .success := by
  refine ⟨readiness_resolution_spec.1 "Pulling image x" none [], ?_, ?_⟩
  · exact readiness_resolution_spec.2.1 "Failed" "image pull backoff" [] (by decide) (by decide)
  · have h := readiness_resolution_spec.2.2 "FailedScheduling"
      "pod has unbound immediate PersistentVolumeClaims (repeated 2 times)"
      [WatchItem.podUpdate "Running" none] (by decide) (by decide)
    exact h.trans rfl

/-- Claim C10: a Killing event resolves the wait with the pod-deleted
failure immediately, regardless of the rest of the stream (in particular the
pod object's deletion timestamp is never consulted). -/
theorem killing_event_resolves_pod_deleted :
    ∀ (msg : String) (rest : List WatchItem),
      waitUntilRunning (WatchItem.podEvent "Killing" msg :: rest) = .podDeleted :=
  fun _ _ => rfl

end Watcher

namespace Volumes

/-- Claim C4: calling the volume provisioner when a claim with the same
name exists and matches the requested spec (same storage size; storage
class unset by the caller or matching) returns no error and performs no
create; when the existing size differs from the requested size it returns
an error instead of resizing, except that an existing claim of the
historical default size (10Gi) is accepted when the caller requests the
current default size. -/
theorem create_existing_claim_spec (pvc : PVC) (dev : Dev) (createErr : Option String) :
    (lookupKV pvc.spec.storageRequests "storage" = some dev.size →
      (dev.storageClass = "" ∨ pvc.spec.storageClassName = some dev.storageClass) →
      create (.found pvc) createErr dev = .ok .noop) ∧
    (∀ cur, lookupKV pvc.spec.storageRequests "storage" = some cur →
      cur ≠ dev.size → (cur ≠ tenGi ∨ dev.size ≠ oktetoDefaultPVSize) →
      ∃ m, create (.found pvc) createErr dev = .error m) ∧
    (lookupKV pvc.spec.storageRequests "storage" = some tenGi →
      dev.size = oktetoDefaultPVSize →
      (dev.storageClass = "" ∨ pvc.spec.storageClassName = some dev.storageClass) →
      create (.found pvc) createErr dev = .ok .noop) := by
  refine ⟨?_, ?_, ?_⟩
  · intro hs hc
    rcases hc with hc | hc
    · simp [create, checkPVCValues, hs, hc]
    · simp [create, checkPVCValues, hs, hc]
  · intro cur hs hne hgf
    refine ⟨"current okteto volume size is '" ++ toString cur ++ "' instead of '"
      ++ toString dev.size ++ "'. Run 'okteto down -v' and try again", ?_⟩
    simp [create, checkPVCValues, hs, hne, hgf]
  · intro hs hd hc
    rcases hc with hc | hc
    · simp [create, checkPVCValues, hs, hd, hc]
    · simp [create, checkPVCValues, hs, hd, hc]

def devFive : Dev := { size := 5, storageClass := "" }

def devDefault : Dev := { size := oktetoDefaultPVSize, storageClass := "" }

def pvcFive : PVC := { name := "v", spec := { storageRequests := [("storage", 5)], storageClassName := none } }

def pvcSeven : PVC := { name := "v", spec := { storageRequests := [("storage", 7)], storageClassName := none } }

def pvcTen : PVC := { name := "v", spec := { storageRequests := [("storage", tenGi)], storageClassName := none } }

/-- Witness for create_existing_claim_spec: a matching claim is a no-op, a
size mismatch errors, the grandfathered 10Gi claim is accepted against the
default request. -/
theorem create_existing_claim_spec_witness :
    create (.found pvcFive) none devFive = .ok .noop ∧
    (∃ m, create (.found pvcSeven) none devFive = .error m) ∧
    create (.found pvcTen) none devDefault = .ok .noop := by
  refine ⟨?_, ?_, ?_⟩
  · exact (create_existing_claim_spec pvcFive devFive none).1 rfl (Or.inl rfl)
  · exact (create_existing_claim_spec pvcSeven devFive none).2.1 7 rfl
      (by decide) (Or.inl (by decide))
  · exact (create_existing_claim_spec pvcTen devDefault none).2.2 rfl rfl (Or.inl rfl)

/-- One unfolding of the Destroy loop with positive fuel. -/
theorem destroyLoop_succ (env : DestroyEnv) (name : String) (bound fuel i : Nat) :
    destroyLoop env name bound (fuel + 1) i =
      match env.deleteAt i with
      | .notFound => some .destroyed
      | .err m => some (.failed ("error deleting kubernetes volume: " ++ m))
      | .deleted =>
        if bound < env.elapsed i then
          match checkIfAttached name env.podsList with
          | some m => some (.failed m)
          | none => some (.failed ("volume claim '" ++ name
              ++ "' wasn't destroyed after " ++ toString bound ++ "s"))
        else if env.cancelledAt i then some .cancelled
        else destroyLoop env name bound fuel (i + 1) := rfl

/-- An iteration whose delete succeeded before the deadline and without
cancellation just ticks to the next iteration. -/
theorem destroyLoop_continue (env : DestroyEnv) (name : String) (bound fuel i : Nat)
    (h1 : env.deleteAt i = .deleted) (h2 : env.elapsed i ≤ bound)
    (h3 : env.cancelledAt i = false) :
    destroyLoop env name bound (fuel + 1) i = destroyLoop env name bound fuel (i + 1) := by
  rw [destroyLoop_succ, h1, if_neg (Nat.not_lt.mpr h2), h3]
  simp

/-- Advancing the Destroy loop past `n` iterations that all keep looping
(delete succeeded, timeout not reached, not cancelled). -/
theorem destroyLoop_advance (env : DestroyEnv) (name : String) (bound : Nat) :
    ∀ (n fuel j : Nat),
    (∀ i, j ≤ i → i < j + n →
      env.deleteAt i = .deleted ∧ env.elapsed i ≤ bound ∧ env.cancelledAt i = false) →
    destroyLoop env name bound (n + fuel) j = destroyLoop env name bound fuel (j + n) := by
  intro n
  induction n with
  | zero => intro fuel j _; simp
  | succ m ih =>
    intro fuel j h
    have hj := h j (Nat.le_refl j) (by omega)
    have hstep : m + 1 + fuel = (m + fuel) + 1 := by omega
    rw [hstep, destroyLoop_continue env name bound (m + fuel) j hj.1 hj.2.1 hj.2.2,
      ih fuel (j + 1) (fun i h1 h2 => h i (by omega) (by omega))]
    congr 1
    omega

/-- Claim C5: the Destroy loop treats NotFound on delete as success
(idempotent); once the 3×base-timeout bound has elapsed it fails with an
error naming the first pod still referencing the claim, or with the generic
not-destroyed-within-timeout error (naming the bound) when no pod
references it (or the pod list fails); and when the context is cancelled it
returns the cancellation result.  `n` is the first iteration whose
conditions differ from plain looping. -/
theorem destroy_loop_spec (env : DestroyEnv) (name : String) (baseTimeout n fuel : Nat)
    (hpre : ∀ i, i < n →
      env.deleteAt i = .deleted ∧ env.elapsed i ≤ 3 * baseTimeout ∧
      env.cancelledAt i = false) :
    (env.deleteAt n = .notFound →
      destroy env name baseTimeout (n + (fuel + 1)) = some .destroyed) ∧
    (∀ pods p, env.deleteAt n = .deleted → 3 * baseTimeout < env.elapsed n →
      env.podsList = .ok pods →
      pods.find? (fun q => q.claimNames.contains name) = some p →
      destroy env name baseTimeout (n + (fuel + 1)) =
        some (.failed ("can't delete the volume '" ++ name
          ++ "' since it's still attached to 'pod/" ++ p.name ++ "'"))) ∧
    (env.deleteAt n = .deleted → 3 * baseTimeout < env.elapsed n →
      checkIfAttached name env.podsList = none →
      destroy env name baseTimeout (n + (fuel + 1)) =
        some (.failed ("volume claim '" ++ name ++ "' wasn't destroyed after "
          ++ toString (3 * baseTimeout) ++ "s"))) ∧
    (env.deleteAt n = .deleted → env.elapsed n ≤ 3 * baseTimeout →
      env.cancelledAt n = true →
      destroy env name baseTimeout (n + (fuel + 1)) = some .cancelled) := by
  have hadv : destroyLoop env name (3 * baseTimeout) (n + (fuel + 1)) 0 =
      destroyLoop env name (3 * baseTimeout) (fuel + 1) n := by
    have := destroyLoop_advance env name (3 * baseTimeout) n (fuel + 1) 0
      (fun i h1 h2 => hpre i (by omega))
    simpa using this
  refine ⟨?_, ?_, ?_, ?_⟩
  · intro hdel
    unfold destroy
    rw [hadv, destroyLoop_succ, hdel]
  · intro pods p hdel helap hpods hfind
    unfold destroy
    rw [hadv, destroyLoop_succ, hdel, if_pos helap]
    have hfind' : List.find? (fun q => decide (name ∈ q.claimNames)) pods = some p := by
      simpa using hfind
    simp [checkIfAttached, hpods, hfind']
  · intro hdel helap hatt
    unfold destroy
    rw [hadv, destroyLoop_succ, hdel, if_pos helap, hatt]
  · intro hdel helap hcanc
    unfold destroy
    rw [hadv, destroyLoop_succ, hdel, if_neg (Nat.not_lt.mpr helap), hcanc]
    simp

def envGone : DestroyEnv :=
  { deleteAt := fun _ => .notFound, elapsed := fun _ => 0,
    cancelledAt := fun _ => false, podsList := .ok [] }

def envStuck : DestroyEnv :=
  { deleteAt := fun _ => .deleted, elapsed := fun _ => 1000,
    cancelledAt := fun _ => false,
    podsList := .ok [{ name := "p1", claimNames := ["v"] }] }

def envCancelled : DestroyEnv :=
  { deleteAt := fun _ => .deleted, elapsed := fun _ => 0,
    cancelledAt := fun _ => true, podsList := .ok [] }

/-- Witness for destroy_loop_spec at concrete environments: an absent claim
destroys immediately; a claim still attached past the bound fails naming
pod p1; cancellation is propagated. -/
theorem destroy_loop_spec_witness :
    destroy envGone "v" 30 1 = some .destroyed ∧
    destroy envStuck "v" 30 1 =
      some (.failed "can't delete the volume 'v' since it's still attached to 'pod/p1'") ∧
    destroy envCancelled "v" 30 1 = some .cancelled := by
  have hvac : ∀ i, i < 0 →
      (envGone.deleteAt i = .deleted ∧ envGone.elapsed i ≤ 3 * 30 ∧
        envGone.cancelledAt i = false) := fun i h => absurd h (Nat.not_lt_zero i)
  refine ⟨?_, ?_, ?_⟩
  · exact (destroy_loop_spec envGone "v" 30 0 0
      (fun i h => absurd h (Nat.not_lt_zero i))).1 rfl
  · have h := (destroy_loop_spec envStuck "v" 30 0 0
      (fun i h => absurd h (Nat.not_lt_zero i))).2.1
      [{ name := "p1", claimNames := ["v"] }] { name := "p1", claimNames := ["v"] }
      rfl (by decide) rfl (by decide)
    exact h.trans (by decide)
  · exact (destroy_loop_spec envCancelled "v" 30 0 0
      (fun i h => absurd h (Nat.not_lt_zero i))).2.2.2 rfl (by decide) rfl

end Volumes

/-- filterMap only depends on the function's values on the list. -/
theorem filterMap_congr_on {α β : Type} (l : List α) (f g : α → Option β)
    (h : ∀ a ∈ l, f a = g a) : l.filterMap f = l.filterMap g := by
  induction l with
  | nil => rfl
  | cons a rest ih =>
    rw [List.filterMap_cons, List.filterMap_cons, h a (List.mem_cons_self a rest),
      ih (fun x hx => h x (List.mem_cons_of_mem a hx))]

namespace Deployments

/-- Looking up the map built by folding rule variables over `m`: the last
rule occurrence wins, else the original binding. -/
theorem foldl_setKV_lookup (env : List RuleEnvVar) :
    ∀ (m : List (String × String)) (n : String),
    lookupKV (env.foldl (fun m e => setKV m e.name e.value) m) n =
      match ruleLast env n with
      | some v => some v
      | none => lookupKV m n := by
  induction env with
  | nil => intro m n; rfl
  | cons e rest ih =>
    intro m n
    rw [List.foldl_cons, ih]
    cases hr : ruleLast rest n with
    | some v => simp [ruleLast, hr]
    | none =>
      by_cases hn : e.name = n
      · subst hn
        simp [ruleLast, hr, lookupKV_setKV_self]
      · simp [ruleLast, hr, hn,
          lookupKV_setKV_ne m e.name n e.value (fun hh => hn hh.symm)]

/-- The rule-environment map holds exactly the last value per name. -/
theorem lookupKV_buildRuleEnvMap (env : List RuleEnvVar) (n : String) :
    lookupKV (buildRuleEnvMap env) n = ruleLast env n := by
  rw [buildRuleEnvMap, foldl_setKV_lookup]
  cases ruleLast env n <;> rfl

/-- First component of the base-environment pass: with distinct base names,
each base variable is rewritten from the map independently. -/
theorem applyRuleEnv_fst (base : List EnvVar) :
    ∀ (m : List (String × String)),
    (base.map EnvVar.name).Nodup →
    (applyRuleEnv base m).1 = base.map (fun e =>
      match lookupKV m e.name with
      | some v => { name := e.name, value := v, valueFrom := none }
      | none => e) := by
  induction base with
  | nil => intro m _; rfl
  | cons e rest ih =>
    intro m h
    rw [List.map_cons, List.nodup_cons] at h
    cases hm : lookupKV m e.name with
    | some v =>
      simp only [applyRuleEnv, hm, List.map_cons]
      rw [ih (removeKV m e.name) h.2]
      congr 1
      apply List.map_congr_left
      intro x hx
      have hxne : x.name ≠ e.name :=
        fun hh => h.1 (hh ▸ List.mem_map_of_mem EnvVar.name hx)
      rw [lookupKV_removeKV_ne m e.name x.name hxne]
    | none =>
      simp only [applyRuleEnv, hm, List.map_cons]
      rw [ih m h.2]

/-- Second component of the base-environment pass: a name is gone from the
residual map as soon as it occurs in the base. -/
theorem applyRuleEnv_snd_lookup (base : List EnvVar) :
    ∀ (m : List (String × String)) (n : String),
    lookupKV (applyRuleEnv base m).2 n =
      if n ∈ base.map EnvVar.name then none else lookupKV m n := by
  induction base with
  | nil => intro m n; simp [applyRuleEnv]
  | cons e rest ih =>
    intro m n
    cases hm : lookupKV m e.name with
    | some v =>
      simp only [applyRuleEnv, hm]
      rw [ih (removeKV m e.name) n]
      by_cases hn : n ∈ rest.map EnvVar.name
      · simp [hn]
      · by_cases hne : n = e.name
        · subst hne
          simp [hn, lookupKV_removeKV_self]
        · simp [hn, hne, lookupKV_removeKV_ne m e.name n hne]
    | none =>
      simp only [applyRuleEnv, hm]
      rw [ih m n]
      by_cases hn : n ∈ rest.map EnvVar.name
      · simp [hn]
      · by_cases hne : n = e.name
        · subst hne
          simp [hn, hm]
        · simp [hn, hne]

/-- The append pass is a filterMap over the rule variables against the
residual map. -/
theorem appendRuleEnv_eq_filterMap (l : List RuleEnvVar) (m1 : List (String × String)) :
    appendRuleEnv l m1 = l.filterMap (fun e =>
      match lookupKV m1 e.name with
      | some v => some { name := e.name, value := v, valueFrom := none }
      | none => none) := by
  induction l with
  | nil => rfl
  | cons e rest ih =>
    cases hm : lookupKV m1 e.name with
    | some v => simp [appendRuleEnv, hm, List.filterMap_cons, ih]
    | none => simp [appendRuleEnv, hm, List.filterMap_cons, ih]

/-- Claim C2 (amended): provided the base environment has pairwise distinct
names, the merge preserves base variables not named in the rule in place,
rewrites every base variable named in the rule to the rule's (last) value
for that name, and appends — at the end, in rule order — exactly the rule
variables whose names do not occur in the base. -/
theorem translateEnvVars_merge_spec (base : List EnvVar) (rule : List RuleEnvVar)
    (h : (base.map EnvVar.name).Nodup) :
    translateEnvVars base rule =
      base.map (fun e =>
        match ruleLast rule e.name with
        | some v => { name := e.name, value := v, valueFrom := none }
        | none => e)
      ++ rule.filterMap (fun e =>
        if e.name ∈ base.map EnvVar.name then none
        else match ruleLast rule e.name with
          | some v => some { name := e.name, value := v, valueFrom := none }
          | none => none) := by
  show (applyRuleEnv base (buildRuleEnvMap rule)).1
      ++ appendRuleEnv rule (applyRuleEnv base (buildRuleEnvMap rule)).2 = _
  rw [appendRuleEnv_eq_filterMap, applyRuleEnv_fst base (buildRuleEnvMap rule) h]
  congr 1
  · apply List.map_congr_left
    intro e _
    rw [lookupKV_buildRuleEnvMap]
  · apply filterMap_congr_on
    intro e _
    rw [applyRuleEnv_snd_lookup, lookupKV_buildRuleEnvMap]
    by_cases hP : e.name ∈ base.map EnvVar.name
    · simp [hP]
    · simp [hP]

/-- Claim C2, counterexample: with a duplicated base name, the second base
occurrence of a rule-named variable keeps its stale value, so not every base
variable named in the rule receives the rule's value. -/
theorem translateEnvVars_duplicate_base_cex :
    ¬ (∀ e ∈ translateEnvVars
        [{ name := "X", value := "1", valueFrom := none },
         { name := "X", value := "2", valueFrom := none }]
        [{ name := "X", value := "9" }],
        e.name = "X" → e.value = "9") := by decide

def baseEnvW : List EnvVar :=
  [{ name := "A", value := "1", valueFrom := none },
   { name := "B", value := "2", valueFrom := none }]

def ruleEnvW : List RuleEnvVar :=
  [{ name := "B", value := "9" }, { name := "C", value := "3" }]

/-- Witness for translateEnvVars_merge_spec at a concrete environment. -/
theorem translateEnvVars_merge_spec_witness :
    translateEnvVars baseEnvW ruleEnvW =
      [{ name := "A", value := "1", valueFrom := none },
       { name := "B", value := "9", valueFrom := none },
       { name := "C", value := "3", valueFrom := none }] :=
  (translateEnvVars_merge_spec baseEnvW ruleEnvW (by decide)).trans (by decide)

/-- Looking up the merged key itself. -/
theorem lookupKV_mergeResourceKey_self (t s : List (String × String)) (k : String) :
    lookupKV (mergeResourceKey t s k) k =
      match lookupKV s k with
      | some v => some v
      | none => lookupKV t k := by
  unfold mergeResourceKey
  cases hs : lookupKV s k with
  | some v => simp [lookupKV_setKV_self]
  | none => rfl

/-- Merging one key leaves every other key alone. -/
theorem lookupKV_mergeResourceKey_ne (t s : List (String × String)) (k k' : String)
    (h : k' ≠ k) : lookupKV (mergeResourceKey t s k) k' = lookupKV t k' := by
  unfold mergeResourceKey
  cases hs : lookupKV s k with
  | some v => simp [lookupKV_setKV_ne t k k' v h]
  | none => rfl

/-- The four-key merge chain: fixed keys take the rule value when present,
every other key (and fixed keys absent from the rule) reads from the base. -/
theorem lookupKV_merge_chain (t s : List (String × String)) (k : String) :
    lookupKV (mergeResourceKey (mergeResourceKey (mergeResourceKey
        (mergeResourceKey t s resourceMemory) s resourceCPU) s resourceAMDGPU)
        s resourceNVIDIAGPU) k =
      if k = resourceMemory ∨ k = resourceCPU ∨ k = resourceAMDGPU ∨ k = resourceNVIDIAGPU then
        match lookupKV s k with
        | some v => some v
        | none => lookupKV t k
      else lookupKV t k := by
  by_cases h1 : k = resourceMemory
  · subst h1
    rw [lookupKV_mergeResourceKey_ne _ _ _ _ (by decide),
        lookupKV_mergeResourceKey_ne _ _ _ _ (by decide),
        lookupKV_mergeResourceKey_ne _ _ _ _ (by decide),
        lookupKV_mergeResourceKey_self, if_pos (Or.inl rfl)]
  · by_cases h2 : k = resourceCPU
    · subst h2
      rw [lookupKV_mergeResourceKey_ne _ _ _ _ (by decide),
          lookupKV_mergeResourceKey_ne _ _ _ _ (by decide),
          lookupKV_mergeResourceKey_self, if_pos (Or.inr (Or.inl rfl))]
      cases hs : lookupKV s resourceCPU with
      | some v => rfl
      | none => rw [lookupKV_mergeResourceKey_ne _ _ _ _ (by decide)]
    · by_cases h3 : k = resourceAMDGPU
      · subst h3
        rw [lookupKV_mergeResourceKey_ne _ _ _ _ (by decide),
            lookupKV_mergeResourceKey_self, if_pos (Or.inr (Or.inr (Or.inl rfl)))]
        cases hs : lookupKV s resourceAMDGPU with
        | some v => rfl
        | none =>
          rw [lookupKV_mergeResourceKey_ne _ _ _ _ (by decide),
              lookupKV_mergeResourceKey_ne _ _ _ _ (by decide)]
      · by_cases h4 : k = resourceNVIDIAGPU
        · subst h4
          rw [lookupKV_mergeResourceKey_self,
            if_pos (Or.inr (Or.inr (Or.inr rfl)))]
          cases hs : lookupKV s resourceNVIDIAGPU with
          | some v => rfl
          | none =>
            rw [lookupKV_mergeResourceKey_ne _ _ _ _ (by decide),
                lookupKV_mergeResourceKey_ne _ _ _ _ (by decide),
                lookupKV_mergeResourceKey_ne _ _ _ _ (by decide)]
        · rw [lookupKV_mergeResourceKey_ne _ _ _ _ h4,
              lookupKV_mergeResourceKey_ne _ _ _ _ h3,
              lookupKV_mergeResourceKey_ne _ _ _ _ h2,
              lookupKV_mergeResourceKey_ne _ _ _ _ h1,
              if_neg (by tauto)]

/-- Claim C3 (amended): the resource merge handles exactly the four fixed
keys (memory, cpu and the two GPU kinds): each of those takes the rule's
value when the rule carries it; every key absent from the rule — and every
key outside the fixed set, even if the rule carries it — is left with the
container's value, on requests and limits alike. -/
theorem translateResources_fixed_keys_spec (c r : ResourceRequirements) (k : String) :
    (lookupKV (translateResources c r).requests k =
      if k = resourceMemory ∨ k = resourceCPU ∨ k = resourceAMDGPU ∨ k = resourceNVIDIAGPU then
        match lookupKV r.requests k with
        | some v => some v
        | none => lookupKV c.requests k
      else lookupKV c.requests k) ∧
    (lookupKV (translateResources c r).limits k =
      if k = resourceMemory ∨ k = resourceCPU ∨ k = resourceAMDGPU ∨ k = resourceNVIDIAGPU then
        match lookupKV r.limits k with
        | some v => some v
        | none => lookupKV c.limits k
      else lookupKV c.limits k) :=
  ⟨lookupKV_merge_chain c.requests r.requests k, lookupKV_merge_chain c.limits r.limits k⟩

/-- Claim C3, counterexample: a rule request under a key outside the fixed
set (ephemeral-storage) is not copied into the container. -/
theorem translateResources_extra_key_cex :
    lookupKV ({ limits := [], requests := [("ephemeral-storage", "1Gi")] } :
      ResourceRequirements).requests "ephemeral-storage" = some "1Gi" ∧
    lookupKV (translateResources { limits := [], requests := [] }
      { limits := [], requests := [("ephemeral-storage", "1Gi")] }).requests
      "ephemeral-storage" ≠ some "1Gi" := by decide

end Deployments

namespace Deployments

def roSC : SecurityContext where
  runAsUser := none
  runAsGroup := none
  runAsNonRoot := none
  capabilities := none
  readOnlyRootFilesystem := some true
  privileged := some false
  allowPrivilegeEscalation := none

def cSecure : Container where
  name := "c"
  image := "img"
  imagePullPolicy := ""
  workingDir := ""
  command := []
  args := []
  livenessProbe := none
  readinessProbe := none
  startupProbe := none
  env := []
  volumeMounts := []
  resources := { limits := [], requests := [] }
  securityContext := some roSC

def capsRule : ModelSecurityContext where
  runAsUser := none
  runAsGroup := none
  fsGroup := none
  capabilities := some { add := ["NET_ADMIN"], drop := [] }

/-- Claim C8, counterexample: a rule carrying a capabilities override clears
the container's ReadOnlyRootFilesystem, which the claim says is left
unchanged. -/
theorem containerSecurityContext_readonly_cex :
    ((translateContainerSecurityContext cSecure (some capsRule)).securityContext.getD
      default).readOnlyRootFilesystem = none ∧
    (cSecure.securityContext.getD default).readOnlyRootFilesystem = some true ∧
    (none : Option Bool) ≠ some true := by decide

/-- The capability lists after the additive/subtractive merge. -/
def appendCaps (base : Option Capabilities) (caps : Capabilities) : Capabilities :=
  let b : Capabilities := match base with
    | none => { add := [], drop := [] }
    | some cs => cs
  { add := b.add ++ caps.add, drop := b.drop ++ caps.drop }

/-- Claim C8 (amended): for a rule carrying a security-context override,
the container merge writes only runAsUser, runAsGroup, the non-root flag
(forced off when either id is explicitly zero) and the appended
capability lists, and — when the rule carries a capabilities override —
additionally clears ReadOnlyRootFilesystem; all other fields of the
container's existing security context (privileged,
allowPrivilegeEscalation, and ReadOnlyRootFilesystem when no capabilities
are given) keep their values. -/
theorem containerSecurityContext_frame_spec (c : Container) (s : ModelSecurityContext) :
    ((translateContainerSecurityContext c (some s)).securityContext.isSome = true) ∧
    (((translateContainerSecurityContext c (some s)).securityContext.getD default).privileged
      = (c.securityContext.getD default).privileged) ∧
    (((translateContainerSecurityContext c (some s)).securityContext.getD
        default).allowPrivilegeEscalation
      = (c.securityContext.getD default).allowPrivilegeEscalation) ∧
    (s.capabilities = none →
      ((translateContainerSecurityContext c (some s)).securityContext.getD
          default).readOnlyRootFilesystem
        = (c.securityContext.getD default).readOnlyRootFilesystem ∧
      ((translateContainerSecurityContext c (some s)).securityContext.getD
          default).capabilities
        = (c.securityContext.getD default).capabilities) ∧
    (∀ caps, s.capabilities = some caps →
      ((translateContainerSecurityContext c (some s)).securityContext.getD
          default).readOnlyRootFilesystem = none ∧
      ((translateContainerSecurityContext c (some s)).securityContext.getD
          default).capabilities
        = some (appendCaps (c.securityContext.getD default).capabilities caps)) ∧
    (((translateContainerSecurityContext c (some s)).securityContext.getD default).runAsUser
      = if s.runAsUser.isSome then s.runAsUser
        else (c.securityContext.getD default).runAsUser) ∧
    (((translateContainerSecurityContext c (some s)).securityContext.getD default).runAsGroup
      = if s.runAsGroup.isSome then s.runAsGroup
        else (c.securityContext.getD default).runAsGroup) ∧
    (((translateContainerSecurityContext c (some s)).securityContext.getD default).runAsNonRoot
      = if s.runAsUser = some 0 ∨ s.runAsGroup = some 0 then some false
        else (c.securityContext.getD default).runAsNonRoot) := by
  cases hsc : c.securityContext <;>
    cases hcap : s.capabilities <;>
      cases hu : s.runAsUser <;>
        cases hg : s.runAsGroup <;>
          simp [translateContainerSecurityContext, hsc, hcap, hu, hg, appendCaps] <;>
            (try split_ifs) <;> simp_all [appendCaps]

/-- Witness for containerSecurityContext_frame_spec at a concrete container
and rule: privileged is preserved and the capability list is appended. -/
theorem containerSecurityContext_frame_spec_witness :
    ((translateContainerSecurityContext cSecure (some capsRule)).securityContext.getD
      default).privileged = some false ∧
    ((translateContainerSecurityContext cSecure (some capsRule)).securityContext.getD
      default).capabilities = some { add := ["NET_ADMIN"], drop := [] } := by
  have h := containerSecurityContext_frame_spec cSecure capsRule
  refine ⟨h.2.1.trans (by decide), ?_⟩
  exact ((h.2.2.2.2.1 { add := ["NET_ADMIN"], drop := [] } rfl).2).trans (by decide)

end Deployments

namespace Deployments

/-- The rule fields translate never rewrites (plus the conditional image
clause: an explicitly set image is kept; only an empty image is defaulted,
and the init container only has its resource profile filled in). -/
def ruleStable (r r' : TranslationRule) : Prop :=
  r'.imagePullPolicy = r.imagePullPolicy ∧
  r'.workDir = r.workDir ∧
  r'.command = r.command ∧
  r'.args = r.args ∧
  r'.probes = r.probes ∧
  r'.resources = r.resources ∧
  r'.environment = r.environment ∧
  r'.volumes = r.volumes ∧
  r'.securityContext = r.securityContext ∧
  r'.serviceAccount = r.serviceAccount ∧
  r'.secrets = r.secrets ∧
  r'.marker = r.marker ∧
  r'.persistentVolume = r.persistentVolume ∧
  r'.isMainDev = r.isMainDev ∧
  r'.initContainer.image = r.initContainer.image ∧
  (r.image ≠ "" → r'.image = r.image)

theorem ruleStable_refl (r : TranslationRule) : ruleStable r r :=
  ⟨rfl, rfl, rfl, rfl, rfl, rfl, rfl, rfl, rfl, rfl, rfl, rfl, rfl, rfl, rfl,
   fun _ => rfl⟩

theorem ruleStable_trans {a b c : TranslationRule}
    (h1 : ruleStable a b) (h2 : ruleStable b c) : ruleStable a c := by
  obtain ⟨a1, a2, a3, a4, a5, a6, a7, a8, a9, a10, a11, a12, a13, a14, a15, a16⟩ := h1
  obtain ⟨b1, b2, b3, b4, b5, b6, b7, b8, b9, b10, b11, b12, b13, b14, b15, b16⟩ := h2
  refine ⟨b1.trans a1, b2.trans a2, b3.trans a3, b4.trans a4, b5.trans a5,
    b6.trans a6, b7.trans a7, b8.trans a8, b9.trans a9, b10.trans a10,
    b11.trans a11, b12.trans a12, b13.trans a13, b14.trans a14,
    b15.trans a15, ?_⟩
  intro h
  have ha := a16 h
  exact (b16 (ha.symm ▸ h)).trans ha

theorem forall₂_ruleStable_trans :
    ∀ {l1 l2 l3 : List TranslationRule}, List.Forall₂ ruleStable l1 l2 →
    List.Forall₂ ruleStable l2 l3 → List.Forall₂ ruleStable l1 l3 := by
  intro l1
  induction l1 with
  | nil =>
    intro l2 l3 h12 h23
    cases h12
    cases h23
    exact List.Forall₂.nil
  | cons a rest ih =>
    intro l2 l3 h12 h23
    cases h12 with
    | cons hab h12' =>
      cases h23 with
      | cons hbc h23' =>
        exact List.Forall₂.cons (ruleStable_trans hab hbc) (ih h12' h23')

/-- Rule resolution only rewrites the container name. -/
theorem resolveRuleName_stable (names : List String) (dn : String)
    (r r' : TranslationRule) (h : resolveRuleName names dn r = .ok r') :
    ruleStable r r' := by
  unfold resolveRuleName at h
  cases hx : (if r.container = "" then names.head?
      else if names.contains r.container then some r.container else none) with
  | some n =>
    rw [hx] at h
    cases h
    exact ⟨rfl, rfl, rfl, rfl, rfl, rfl, rfl, rfl, rfl, rfl, rfl, rfl, rfl, rfl, rfl,
      fun _ => rfl⟩
  | none =>
    rw [hx] at h
    cases h

/-- The rule-resolution loop is rule-stable. -/
theorem resolveRules_stable (d : Deployment) :
    ∀ (rs out : List TranslationRule), resolveRules d rs = .ok out →
    List.Forall₂ ruleStable rs out := by
  intro rs
  induction rs with
  | nil =>
    intro out h
    cases h
    exact List.Forall₂.nil
  | cons r rest ih =>
    intro out h
    unfold resolveRules at h
    split at h
    · cases h
    · next r1 h1 =>
      split at h
      · cases h
      · next rest1 h2 =>
        cases h
        exact List.Forall₂.cons (resolveRuleName_stable _ _ _ _ h1) (ih rest1 h2)

/-- TranslateDevContainer only defaults an empty rule image. -/
theorem translateDevContainer_rule_stable (c : Container) (r : TranslationRule) :
    ruleStable r (translateDevContainer c r).2 := by
  unfold translateDevContainer
  by_cases h : r.image = "" <;> simp [h, ruleStable]

/-- Updating the init container's resource profile keeps the rule stable. -/
theorem ruleStable_initUpdate {r r1 : TranslationRule} (h : ruleStable r r1) :
    ruleStable r { r1 with initContainer := translateInitContainer r1.initContainer } := by
  obtain ⟨h1, h2, h3, h4, h5, h6, h7, h8, h9, h10, h11, h12, h13, h14, h15, h16⟩ := h
  exact ⟨h1, h2, h3, h4, h5, h6, h7, h8, h9, h10, h11, h12, h13, h14, h15, h16⟩

/-- One iteration of the main loop is rule-stable. -/
theorem translateRuleStep_rule_stable (tn dn : String) (ps : PodSpec)
    (r : TranslationRule) (out : PodSpec × TranslationRule)
    (h : translateRuleStep tn dn ps r = .ok out) : ruleStable r out.2 := by
  unfold translateRuleStep at h
  cases hidx : getDevContainerIdx ps.containers r.container with
  | none => rw [hidx] at h; cases h
  | some i =>
    rw [hidx] at h
    cases h
    exact ruleStable_initUpdate
      (translateDevContainer_rule_stable (ps.containers.getD i default) r)

/-- The main loop is rule-stable. -/
theorem translateRules_stable (tn dn : String) :
    ∀ (rs : List TranslationRule) (ps : PodSpec) (out : PodSpec × List TranslationRule),
    translateRules tn dn ps rs = .ok out → List.Forall₂ ruleStable rs out.2 := by
  intro rs
  induction rs with
  | nil =>
    intro ps out h
    cases h
    exact List.Forall₂.nil
  | cons r rest ih =>
    intro ps out h
    unfold translateRules at h
    split at h
    · cases h
    · next pr h1 =>
      split at h
      · cases h
      · next prs h2 =>
        cases h
        exact List.Forall₂.cons (translateRuleStep_rule_stable tn dn ps r pr h1)
          (ih pr.1 prs h2)

/-- Claim C9 (amended): translate does mutate the caller's rules, but only
in three places: the container name is resolved, an empty image is
defaulted from the target container, and the init-container resource
profile is filled in; every other rule field (and a non-empty image, and
the init-container image) is returned exactly as supplied. -/
theorem translate_rule_stability (t t' : Translation) (h : translate t = .ok t') :
    List.Forall₂ ruleStable t.rules t'.rules := by
  unfold translate at h
  split at h
  · cases h
  · next rules1 h1 =>
    unfold mutate at h
    split at h
    · cases h
    · next pr h3 =>
      cases h
      split at h3
      · cases h3
      · next pr2 h4 =>
        cases h3
        exact forall₂_ruleStable_trans
          (resolveRules_stable t.deployment t.rules rules1 h1)
          (translateRules_stable _ _ rules1 _ pr2 h4)

end Deployments

namespace Deployments

/-! ### A concrete example translation (one container named "api", one
interactive rule with empty container selector). -/

def cEx : Container where
  name := "api"
  image := "prod"
  imagePullPolicy := "Always"
  workingDir := "/w"
  command := ["run"]
  args := []
  livenessProbe := some "p"
  readinessProbe := none
  startupProbe := none
  env := [{ name := "A", value := "1", valueFrom := none }]
  volumeMounts := []
  resources := { limits := [], requests := [] }
  securityContext := none

def psEx : PodSpec where
  containers := [cEx]
  initContainers := []
  volumes := []
  tolerations := []
  affinity := none
  securityContext := none
  serviceAccountName := ""
  terminationGracePeriodSeconds := none

def dEx : Deployment :=
  .mk { name := "api", labels := [], annotations := [("k", "v"), (revisionAnnKey, "3")] }
    none
    { replicas := some 3,
      template := { metadata := { name := "", labels := [], annotations := [] },
                    podSpec := psEx } }
    "st"

def rEx : TranslationRule where
  container := ""
  image := "dev:latest"
  imagePullPolicy := "Always"
  workDir := ""
  command := []
  args := []
  probes := { liveness := false, readiness := false, startup := false }
  resources := { limits := [], requests := [] }
  environment := [{ name := "B", value := "2" }]
  volumes := []
  securityContext := none
  serviceAccount := ""
  secrets := []
  marker := "m"
  initContainer := { image := "okteto/bin", resources := { limits := [], requests := [] } }
  persistentVolume := true
  isMainDev := true

def tEx : Translation where
  name := "api"
  interactive := true
  deployment := dEx
  annotations := [("u", "1")]
  tolerations := []
  rules := [rEx]

/-- Claim C9, counterexample: translate rewrites the caller-supplied rule's
container field (empty selector resolved to the first container's name), so
the rules are not unchanged after translate returns. -/
theorem translate_mutates_rules_cex :
    (translate tEx).toOption.map (fun t => t.rules.map (fun r => r.container))
      = some ["api"] ∧
    tEx.rules.map (fun r => r.container) = [""] ∧
    ("api" : String) ≠ "" := by
  refine ⟨rfl, rfl, by decide⟩

/-- Witness for translate_rule_stability at the concrete example. -/
theorem translate_rule_stability_witness :
    List.Forall₂ ruleStable tEx.rules ((translate tEx).toOption.getD default).rules :=
  translate_rule_stability tEx ((translate tEx).toOption.getD default) rfl

end Deployments

namespace Deployments

/-! ### Field lemmas for the deployment update operations -/

@[simp] theorem setMetadata_storedManifest (d : Deployment) (m : ObjectMeta) :
    (d.setMetadata m).storedManifest = d.storedManifest := by cases d; rfl

@[simp] theorem setMetadata_spec (d : Deployment) (m : ObjectMeta) :
    (d.setMetadata m).spec = d.spec := by cases d; rfl

@[simp] theorem setMetadata_metadata (d : Deployment) (m : ObjectMeta) :
    (d.setMetadata m).metadata = m := by cases d; rfl

@[simp] theorem setMetadata_status (d : Deployment) (m : ObjectMeta) :
    (d.setMetadata m).status = d.status := by cases d; rfl

@[simp] theorem setStatus_storedManifest (d : Deployment) (s : String) :
    (d.setStatus s).storedManifest = d.storedManifest := by cases d; rfl

@[simp] theorem setStatus_spec (d : Deployment) (s : String) :
    (d.setStatus s).spec = d.spec := by cases d; rfl

@[simp] theorem setStatus_metadata (d : Deployment) (s : String) :
    (d.setStatus s).metadata = d.metadata := by cases d; rfl

@[simp] theorem setStatus_status (d : Deployment) (s : String) :
    (d.setStatus s).status = s := by cases d; rfl

@[simp] theorem setStored_storedManifest (d : Deployment) (st : Option Deployment) :
    (d.setStored st).storedManifest = st := by cases d; rfl

@[simp] theorem setStored_spec (d : Deployment) (st : Option Deployment) :
    (d.setStored st).spec = d.spec := by cases d; rfl

@[simp] theorem setStored_metadata (d : Deployment) (st : Option Deployment) :
    (d.setStored st).metadata = d.metadata := by cases d; rfl

@[simp] theorem setReplicas_storedManifest (d : Deployment) (r : Option Int) :
    (d.setReplicas r).storedManifest = d.storedManifest := by cases d; rfl

@[simp] theorem setReplicas_metadata (d : Deployment) (r : Option Int) :
    (d.setReplicas r).metadata = d.metadata := by cases d; rfl

@[simp] theorem setReplicas_template (d : Deployment) (r : Option Int) :
    (d.setReplicas r).spec.template = d.spec.template := by cases d; rfl

@[simp] theorem updTemplateMeta_storedManifest (d : Deployment) (f : ObjectMeta → ObjectMeta) :
    (d.updTemplateMeta f).storedManifest = d.storedManifest := by cases d; rfl

@[simp] theorem updTemplateMeta_metadata (d : Deployment) (f : ObjectMeta → ObjectMeta) :
    (d.updTemplateMeta f).metadata = d.metadata := by cases d; rfl

@[simp] theorem updTemplateMeta_podSpec (d : Deployment) (f : ObjectMeta → ObjectMeta) :
    (d.updTemplateMeta f).spec.template.podSpec = d.spec.template.podSpec := by cases d; rfl

@[simp] theorem updPodSpec_storedManifest (d : Deployment) (f : PodSpec → PodSpec) :
    (d.updPodSpec f).storedManifest = d.storedManifest := by cases d; rfl

@[simp] theorem updPodSpec_metadata (d : Deployment) (f : PodSpec → PodSpec) :
    (d.updPodSpec f).metadata = d.metadata := by cases d; rfl

@[simp] theorem updPodSpec_podSpec (d : Deployment) (f : PodSpec → PodSpec) :
    (d.updPodSpec f).spec.template.podSpec = f d.spec.template.podSpec := by cases d; rfl

/-- containerNames in terms of the pod spec. -/
theorem containerNames_eq (d : Deployment) :
    containerNames d = d.spec.template.podSpec.containers.map Container.name := rfl

/-! ### stripPrep / restoreBase / prepare lemmas -/

@[simp] theorem stripPrep_storedManifest (d : Deployment) :
    (stripPrep d).storedManifest = d.storedManifest := by
  unfold stripPrep; simp

@[simp] theorem stripPrep_spec (d : Deployment) : (stripPrep d).spec = d.spec := by
  unfold stripPrep; simp

@[simp] theorem stripPrep_name (d : Deployment) :
    (stripPrep d).metadata.name = d.metadata.name := by
  unfold stripPrep; simp

@[simp] theorem stripPrep_status (d : Deployment) : (stripPrep d).status = "" := by
  unfold stripPrep; simp

theorem stripPrep_idem (d : Deployment) : stripPrep (stripPrep d) = stripPrep d := by
  cases d with
  | mk m st s stat =>
    cases m with
    | mk nm lb an =>
      simp [stripPrep, Deployment.setMetadata, Deployment.setStatus,
        Deployment.metadata, removeKV_idem]

theorem restoreBase_of_none (d : Deployment) (h : d.storedManifest = none) :
    restoreBase d = d := by
  unfold restoreBase; rw [h]

theorem restoreBase_of_some (d S : Deployment) (h : d.storedManifest = some S) :
    restoreBase d = S := by
  unfold restoreBase; rw [h]

theorem prepare_eq (d : Deployment) :
    prepare d = (stripPrep (restoreBase d)).setStored (some (stripPrep (restoreBase d))) := rfl

@[simp] theorem prepare_storedManifest (d : Deployment) :
    (prepare d).storedManifest = some (stripPrep (restoreBase d)) := by
  rw [prepare_eq]; simp

theorem prepare_containerNames (d : Deployment) :
    containerNames (prepare d) = containerNames (restoreBase d) := by
  rw [prepare_eq]
  simp [containerNames_eq]

/-- Two deployments with the same stripped restored base prepare alike. -/
theorem prepare_congr (d1 d2 : Deployment)
    (h : stripPrep (restoreBase d1) = stripPrep (restoreBase d2)) :
    prepare d1 = prepare d2 := by
  rw [prepare_eq, prepare_eq, h]

end Deployments

namespace Deployments

/-! ### Container-name preservation through the per-rule pipeline -/

/-- Setting an index to a container with the same name keeps the name list. -/
theorem list_set_map_name :
    ∀ (l : List Container) (i : Nat) (c : Container),
    c.name = (l.getD i default).name →
    (l.set i c).map Container.name = l.map Container.name := by
  intro l
  induction l with
  | nil => intro i c _; rfl
  | cons x xs ih =>
    intro i c h
    cases i with
    | zero =>
      simp only [List.getD, List.get?, Option.getD] at h
      simp [List.set, h]
    | succ j =>
      simp only [List.getD_cons_succ] at h
      simp [List.set, ih j c h]

@[simp] theorem translateProbes_name (c : Container) (h : Probes) :
    (translateProbes c h).name = c.name := rfl

@[simp] theorem translateVolumeMounts_name (c : Container) (r : TranslationRule) :
    (translateVolumeMounts c r).name = c.name := by
  unfold translateVolumeMounts
  split <;> rfl

@[simp] theorem translateContainerSecurityContext_name (c : Container)
    (s : Option ModelSecurityContext) :
    (translateContainerSecurityContext c s).name = c.name := by
  cases s with
  | none => rfl
  | some s =>
    unfold translateContainerSecurityContext
    cases hu : s.runAsUser <;> cases hg : s.runAsGroup <;> cases hc : s.capabilities <;>
      simp [hu, hg, hc]

@[simp] theorem translateDevContainer_fst_name (c : Container) (r : TranslationRule) :
    (translateDevContainer c r).1.name = c.name := by
  by_cases h1 : r.image = "" <;> by_cases h2 : r.workDir = "" <;>
    by_cases h3 : r.command.length > 0 <;>
      simp [translateDevContainer, h1, h2, h3]

@[simp] theorem translateOktetoBinVolumeMounts_name (c : Container) :
    (translateOktetoBinVolumeMounts c).name = c.name := by
  unfold translateOktetoBinVolumeMounts
  split <;> rfl

@[simp] theorem translateOktetoVolumes_containers (r : TranslationRule) :
    ∀ (ps : PodSpec), (translateOktetoVolumes ps r).containers = ps.containers := by
  unfold translateOktetoVolumes
  suffices hgen : ∀ (l : List RuleVolume) (ps : PodSpec),
      (l.foldl (fun ps rV =>
        if ps.volumes.any (fun v => v.name = rV.name) then ps
        else { ps with volumes := ps.volumes ++
          [{ name := rV.name,
             source := if !r.persistentVolume && rV.isSyncthingVol then
               VolumeSource.emptyDir else VolumeSource.pvc rV.name false }] })
        ps).containers = ps.containers by
    intro ps
    exact hgen r.volumes ps
  intro l
  induction l with
  | nil => intro ps; rfl
  | cons v rest ih =>
    intro ps
    rw [List.foldl_cons, ih]
    split <;> rfl

@[simp] theorem translatePodSecurityContext_containers (ps : PodSpec)
    (s : Option ModelSecurityContext) :
    (translatePodSecurityContext ps s).containers = ps.containers := by
  cases s with
  | none => rfl
  | some s => cases hg : s.fsGroup <;> simp [translatePodSecurityContext, hg]

@[simp] theorem translatePodServiceAccount_containers (ps : PodSpec) (sa : String) :
    (translatePodServiceAccount ps sa).containers = ps.containers := by
  unfold translatePodServiceAccount
  split <;> rfl

@[simp] theorem translateOktetoDevSecret_containers (ps : PodSpec) (s : String)
    (secrets : List Secret) :
    (translateOktetoDevSecret ps s secrets).containers = ps.containers := by
  unfold translateOktetoDevSecret
  split
  · rfl
  · split <;> rfl

@[simp] theorem translateOktetoBinVolume_containers (ps : PodSpec) :
    (translateOktetoBinVolume ps).containers = ps.containers := by
  unfold translateOktetoBinVolume
  split <;> rfl

@[simp] theorem translateOktetoInitBinContainer_containers (ic : InitContainer)
    (ps : PodSpec) :
    (translateOktetoInitBinContainer ic ps).containers = ps.containers := rfl

@[simp] theorem translateOktetoSyncSecret_containers (ps : PodSpec) (n : String) :
    (translateOktetoSyncSecret ps n).containers = ps.containers := by
  unfold translateOktetoSyncSecret
  split <;> rfl

@[simp] theorem translatePodAffinity_containers (ps : PodSpec) (n : String) :
    (translatePodAffinity ps n).containers = ps.containers := rfl

@[simp] theorem translateDevTolerations_containers (ps : PodSpec)
    (tols : List Toleration) :
    (translateDevTolerations ps tols).containers = ps.containers := rfl

/-- One iteration of the main loop keeps the container name list. -/
theorem translateRuleStep_containers_names (tn dn : String) (ps : PodSpec)
    (r : TranslationRule) (out : PodSpec × TranslationRule)
    (h : translateRuleStep tn dn ps r = .ok out) :
    out.1.containers.map Container.name = ps.containers.map Container.name := by
  unfold translateRuleStep at h
  cases hidx : getDevContainerIdx ps.containers r.container with
  | none => rw [hidx] at h; cases h
  | some i =>
    rw [hidx] at h
    cases h
    split
    · simp only [translateOktetoBinVolume_containers,
        translateOktetoInitBinContainer_containers,
        translateOktetoDevSecret_containers, translatePodServiceAccount_containers,
        translatePodSecurityContext_containers, translateOktetoVolumes_containers]
      rw [list_set_map_name _ _ _ (by simp),
          list_set_map_name _ _ _ (by simp)]
    · simp only [translateOktetoDevSecret_containers, translatePodServiceAccount_containers,
        translatePodSecurityContext_containers, translateOktetoVolumes_containers]
      rw [list_set_map_name _ _ _ (by simp)]

/-- The main loop keeps the container name list. -/
theorem translateRules_names (tn dn : String) :
    ∀ (rs : List TranslationRule) (ps : PodSpec) (out : PodSpec × List TranslationRule),
    translateRules tn dn ps rs = .ok out →
    out.1.containers.map Container.name = ps.containers.map Container.name := by
  intro rs
  induction rs with
  | nil => intro ps out h; cases h; rfl
  | cons r rest ih =>
    intro ps out h
    unfold translateRules at h
    split at h
    · cases h
    · next pr h1 =>
      split at h
      · cases h
      · next prs h2 =>
        cases h
        exact (ih pr.1 prs h2).trans (translateRuleStep_containers_names tn dn ps r pr h1)

end Deployments

namespace Deployments

/-! ### Facts about the pre-loop pipeline needed for idempotence -/

theorem commonTranslation_deployment_stored (t : Translation) :
    (commonTranslation t).deployment.storedManifest = t.deployment.storedManifest := by
  unfold commonTranslation
  by_cases hi : t.interactive <;> simp [hi]

theorem commonTranslation_containers (t : Translation) :
    (commonTranslation t).deployment.spec.template.podSpec.containers
      = t.deployment.spec.template.podSpec.containers := by
  unfold commonTranslation
  by_cases hi : t.interactive <;> simp [hi]

theorem mutPre_stored (t : Translation) :
    (mutPre t).storedManifest = t.deployment.storedManifest := by
  unfold mutPre
  by_cases hi : t.interactive <;> simp [hi, commonTranslation_deployment_stored]

theorem mutPre_containers (t : Translation) :
    (mutPre t).spec.template.podSpec.containers
      = t.deployment.spec.template.podSpec.containers := by
  unfold mutPre
  by_cases hi : t.interactive <;>
    simp [hi, translateDevTolerations, commonTranslation_containers]

theorem prepare_containers (d : Deployment) :
    (prepare d).spec.template.podSpec.containers
      = (restoreBase d).spec.template.podSpec.containers := by
  rw [prepare_eq]; simp

/-- In the success case, rule resolution does not depend on the deployment
name (it only feeds the error message). -/
theorem resolveRuleName_ok_depName (names : List String) (dn1 dn2 : String)
    (r r1 : TranslationRule) (h : resolveRuleName names dn1 r = .ok r1) :
    resolveRuleName names dn2 r = .ok r1 := by
  unfold resolveRuleName at h ⊢
  cases hx : (if r.container = "" then names.head?
      else if names.contains r.container then some r.container else none) with
  | some n => rw [hx] at h; exact h
  | none => rw [hx] at h; cases h

/-- In the success case, rule resolution only depends on the container
names of the deployment. -/
theorem resolveRules_ok_congr (d1 d2 : Deployment)
    (hnames : containerNames d2 = containerNames d1) :
    ∀ (rs out : List TranslationRule),
    resolveRules d1 rs = .ok out → resolveRules d2 rs = .ok out := by
  intro rs
  induction rs with
  | nil => intro out h; cases h; rfl
  | cons r rest ih =>
    intro out h
    unfold resolveRules at h ⊢
    rw [hnames]
    split at h
    · cases h
    · next r1 h1 =>
      split at h
      · cases h
      · next rest1 h2 =>
        cases h
        rw [resolveRuleName_ok_depName (containerNames d1) d1.metadata.name
          d2.metadata.name r r1 h1, ih rest1 h2]

/-- Unfolding translate on known resolution and mutation outcomes. -/
theorem translate_unfold_ok (t2 : Translation) (rules1 : List TranslationRule)
    (pr : Deployment × List TranslationRule)
    (hres : resolveRules t2.deployment t2.rules = .ok rules1)
    (hmut : mutate { t2 with deployment := prepare t2.deployment, rules := rules1 }
      rules1 = .ok pr) :
    translate t2 = .ok { t2 with deployment := pr.1, rules := pr.2 } := by
  unfold translate
  simp only [hres, hmut]

/-- Claim C1: translating a spec produced by a prior translation (it carries
the reversibility annotation) with the same rules yields exactly the output
of translating the original, untranslated spec once — translate restores
the stored original before mutating, so re-translation converges. -/
theorem translate_idempotent (t t' : Translation)
    (h0 : t.deployment.storedManifest = none)
    (h : translate t = .ok t') :
    translate { t with deployment := t'.deployment } = .ok t' := by
  unfold translate at h
  split at h
  · cases h
  · next rules1 h1 =>
    split at h
    · cases h
    · next pr hmut =>
      cases h
      have hfacts := hmut
      unfold mutate at hfacts
      split at hfacts
      · cases hfacts
      · next pr2 h4 =>
        cases hfacts
        set tP : Translation := { t with deployment := prepare t.deployment, rules := rules1 } with htP
        set B : Deployment := (mutPre tP).updPodSpec (fun _ => pr2.1) with hB
        have hstrip0 : restoreBase t.deployment = t.deployment :=
          restoreBase_of_none t.deployment h0
        have hnames : containerNames B = containerNames t.deployment := by
          rw [hB, containerNames_eq, containerNames_eq]
          simp only [updPodSpec_podSpec]
          rw [translateRules_names _ _ rules1 _ pr2 h4, mutPre_containers]
          show (prepare t.deployment).spec.template.podSpec.containers.map Container.name = _
          rw [prepare_containers, hstrip0]
        have hstored : B.storedManifest = some (stripPrep t.deployment) := by
          rw [hB, updPodSpec_storedManifest, mutPre_stored]
          show (prepare t.deployment).storedManifest = _
          rw [prepare_storedManifest, hstrip0]
        have hprep : prepare B = prepare t.deployment := by
          apply prepare_congr
          rw [restoreBase_of_some B (stripPrep t.deployment) hstored, stripPrep_idem, hstrip0]
        have hres2 : resolveRules B t.rules = .ok rules1 :=
          resolveRules_ok_congr t.deployment B hnames t.rules rules1 h1
        have hmut2 : mutate { t with deployment := prepare B, rules := rules1 } rules1
            = .ok (B, pr2.2) := by
          rw [hprep, ← htP]
          exact hmut
        exact translate_unfold_ok { t with deployment := B } rules1 (B, pr2.2) hres2 hmut2

/-- Witness for translate_idempotent: re-translating the concrete example's
output reproduces it exactly. -/
theorem translate_idempotent_witness :
    translate { tEx with deployment := ((translate tEx).toOption.getD default).deployment }
      = .ok ((translate tEx).toOption.getD default) :=
  translate_idempotent tEx ((translate tEx).toOption.getD default) rfl rfl

end Deployments
